import Mathlib

/-!
# Lumos orchestrator: the plan loop of `orchestrator/planner.js`

A shallow embedding of `planExecution` (src/orchestrator/planner.js) and of the
five capabilities it dispatches to (src/orchestrator/tools.js).

Conventions of the embedding

* JavaScript values that come out of `JSON.parse` are the type `Json`; a
  JavaScript value that may also be `undefined` is `Option Json`.
* Numbers are kept abstract: the program only ever tests a number for
  truthiness or turns it into text, so `Json.num` carries exactly those two
  observations.
* Everything the browser provides (`JSON.parse`, `LanguageModel`, `Summarizer`,
  `Rewriter`, `Translator`, `LanguageDetector`, `chrome.storage`) is a field of
  `Env`.  Every such call threads a world state `σ`, so a call may answer
  differently each time it is made.
* `await` is sequential composition: the flow blocks until the call settles.
* `emitStackEvent` wraps its body in `try/catch` and swallows every fault; it
  has no effect on any value below and is left out.  `console.*` likewise.
-/

namespace Lumos

/-! ## JavaScript values -/

/-- A value produced by `JSON.parse`.  An object is its list of own properties. -/
inductive Json where
  | null
  | bool (b : Bool)
  | num (truthy : Bool) (shown : String)
  | str (s : String)
  | arr (xs : List Json)
  | obj (kvs : List (String × Json))

/-- A thrown JavaScript error: its `name` and its `message`. -/
structure Fault where
  name : String
  message : String
deriving DecidableEq

/-- One entry of the conversation `contents`. -/
structure Turn where
  role : String
  content : String
deriving DecidableEq

/-- One entry of `stepResults`: `{ step: step.name, result }`. -/
structure StepResult where
  step : String
  result : Option String
deriving DecidableEq

/-- How a call of `planExecution` settles: the promise resolves with a value or rejects. -/
inductive Outcome where
  | returned (v : Json)
  | threw (e : Fault)

/-- JavaScript truthiness of a JSON value. -/
def Json.truthy : Json → Bool
  | .null => false
  | .bool b => b
  | .num t _ => t
  | .str s => s.data != []
  | .arr _ => true
  | .obj _ => true

/-- Truthiness of a value that may be `undefined`. -/
def truthy? : Option Json → Bool
  | none => false
  | some v => v.truthy

/-- Own-property lookup in a property list. -/
def lookupKey (k : String) : List (String × Json) → Option Json
  | [] => none
  | (k', v) :: rest => if k' = k then some v else lookupKey k rest

/-- The `delete json.k` operation on a property list. -/
def deleteKey (k : String) : List (String × Json) → List (String × Json)
  | [] => []
  | (k', v) :: rest => if k' = k then deleteKey k rest else (k', v) :: deleteKey k rest

/-- The `json.k = v` operation on a property list. -/
def setKey (k : String) (v : Json) : List (String × Json) → List (String × Json)
  | [] => [(k, v)]
  | (k', v') :: rest => if k' = k then (k, v) :: rest else (k', v') :: setKey k v rest

/-- The expression `x?.k` for the property names used by the planner: the own
property on an object, `undefined` on `null`, `undefined` and every other value
(no primitive or array has a property of one of those names). -/
def getProp (x : Option Json) (k : String) : Option Json :=
  match x with
  | some (.obj kvs) => lookupKey k kvs
  | _ => none

/-- The strict comparison `x === "s"`. -/
def isStr (x : Option Json) (s : String) : Bool :=
  match x with
  | some (.str t) => decide (t = s)
  | _ => false

/-- The strict comparison `x === false`. -/
def isFalse (x : Option Json) : Bool :=
  match x with
  | some (.bool false) => true
  | _ => false

/-! ## Text helpers -/

/-- Whether `p` is an initial segment of `l`. -/
def startsWith (p l : List Char) : Bool :=
  match p, l with
  | [], _ => true
  | _ :: _, [] => false
  | a :: p', b :: l' => if a = b then startsWith p' l' else false

/-- Whether `p` occurs somewhere in `l`. -/
def occursIn (p : List Char) : List Char → Bool
  | [] => startsWith p []
  | c :: cs => startsWith p (c :: cs) || occursIn p cs

/-- The method `s.includes(t)` of a string. -/
def includes (s t : String) : Bool := occursIn t.data s.data

/-- The regular-expression class `\s`. -/
def isSpace (c : Char) : Bool :=
  let n := c.toNat
  n = 9 || n = 10 || n = 11 || n = 12 || n = 13 || n = 32 || n = 160 || n = 5760 ||
  (8192 ≤ n && n ≤ 8202) || n = 8232 || n = 8233 || n = 8239 || n = 8287 ||
  n = 12288 || n = 65279

/-- Greedy `\s*`: what is left after the leading white space. -/
def skipSpace : List Char → List Char
  | [] => []
  | c :: cs => if isSpace c then skipSpace cs else c :: cs

/-- The three backticks of a markdown fence. -/
def fence : List Char := ['\x60', '\x60', '\x60']

/-- The lazy `[\s\S]*?` of Method 1 followed by `\}\s*` and a fence: the
characters up to the first closing brace that only white space separates from
a fence. -/
def lazyBrace : List Char → Option (List Char)
  | [] => none
  | c :: cs =>
    if c = '\x7d' && startsWith fence (skipSpace cs) then some []
    else (lazyBrace cs).map (fun body => c :: body)

/-- Method 1 tried at the start of `l`: a fence, an optional `json`, `\s*`, then
the group `(\{[\s\S]*?\})`, `\s*` and a fence.  Returns the group. -/
def match1At (l : List Char) : Option (List Char) :=
  if startsWith fence l then
    let r := l.drop 3
    let r1 := if startsWith ['j', 's', 'o', 'n'] r then r.drop 4 else r
    match skipSpace r1 with
    | '\x7b' :: r3 => (lazyBrace r3).map (fun body => '\x7b' :: (body ++ ['\x7d']))
    | _ => none
  else none

/-- Method 1, `response.match(/fence(?:json)?\s*(\{[\s\S]*?\})\s*fence/)`, group 1 of
the leftmost match. -/
def jsonMatch1 : List Char → Option (List Char)
  | [] => none
  | c :: cs =>
    match match1At (c :: cs) with
    | some g => some g
    | none => jsonMatch1 cs

/-- The lazy `([\s\S]*?)` of Method 2 followed by `\s*` and a fence: the shortest
run of characters after which only white space precedes a fence. -/
def lazyFence : List Char → Option (List Char)
  | [] => none
  | c :: cs =>
    if startsWith fence (skipSpace (c :: cs)) then some []
    else (lazyFence cs).map (fun body => c :: body)

/-- Method 2 tried at the start of `l`. -/
def match2At (l : List Char) : Option (List Char) :=
  if startsWith (fence ++ ['j', 's', 'o', 'n']) l then lazyFence (skipSpace (l.drop 7))
  else none

/-- Method 2, `response.match(/fence json\s*([\s\S]*?)\s*fence/)`, group 1 of the
leftmost match. -/
def jsonMatch2 : List Char → Option (List Char)
  | [] => none
  | c :: cs =>
    match match2At (c :: cs) with
    | some g => some g
    | none => jsonMatch2 cs

/-- The greedy `[\s\S]*\}`: the characters up to and including the last closing brace. -/
def greedyBrace : List Char → Option (List Char)
  | [] => none
  | c :: cs =>
    match greedyBrace cs with
    | some body => some (c :: body)
    | none => if c = '\x7d' then some [c] else none

/-- Method 3, `response.match(/\{[\s\S]*\}/)`, the whole leftmost match. -/
def jsonMatch3 : List Char → Option (List Char)
  | [] => none
  | c :: cs =>
    if c = '\x7b' then
      match greedyBrace cs with
      | some body => some (c :: body)
      | none => jsonMatch3 cs
    else jsonMatch3 cs

/-- The text `jsonText` chosen by lines 137-161: Method 1, else Method 2 when it
captured a non-empty group, else Method 3. -/
def extractJsonText (response : String) : Option String :=
  match jsonMatch1 response.data with
  | some g => some (String.mk g)
  | none =>
    match jsonMatch2 response.data with
    | some (c :: cs) => some (String.mk (c :: cs))
    | _ =>
      match jsonMatch3 response.data with
      | some g => some (String.mk g)
      | none => none

/-! ## The platform -/

/-- An awaited platform call: it settles with a value or a rejection and leaves a new world. -/
abbrev Call (σ α : Type) := σ → Except Fault α × σ

/-- Everything the browser provides to `planner.js` and `tools.js`. -/
structure Env (σ : Type) where
  /-- The built-in `JSON.parse`; `none` when it throws a `SyntaxError`. -/
  jsonParse : String → Option Json
  /-- The call `LanguageModel.create(...)` of planner.js line 102. -/
  languageModelCreate : Call σ Unit
  /-- The call `session.prompt(contents)` of line 111; the empty text stands for any falsy response. -/
  sessionPrompt : List Turn → Call σ String
  /-- The call `Summarizer.availability()`. -/
  summarizerAvailability : Call σ String
  /-- The call `Summarizer.create()`, followed by `addEventListener` when the flag is set. -/
  summarizerCreate : Bool → Call σ Unit
  /-- The call `summarizer.summarize(text, options)`, given `text` and `options.sharedContext`. -/
  summarizerSummarize : Json → Json → Call σ String
  /-- The call `Rewriter.availability()`. -/
  rewriterAvailability : Call σ String
  /-- The call `Rewriter.create(options)`, followed by `addEventListener` when the flag is set. -/
  rewriterCreate : Json → Json → Bool → Call σ Unit
  /-- The call `rewriter.rewrite(text, options)`, given `text`, `tone` and `context`. -/
  rewriterRewrite : Json → Json → Json → Call σ String
  /-- The call `chrome.storage.local.get([...])`: whether `lumosAudioBlob` is truthy. -/
  storageGet : Call σ Bool
  /-- The call `LanguageModel.availability()` of tools.js. -/
  promptAvailability : Call σ String
  /-- The call `LanguageModel.create(options)` of tools.js (audio input expected or not),
  followed by `addEventListener` when the second flag is set. -/
  promptCreate : Bool → Bool → Call σ Unit
  /-- The call `languageModel.prompt(content)`: audio attached or not, and the question. -/
  promptRun : Bool → Option Json → Call σ String
  /-- The call `chrome.storage.local.remove([...])`. -/
  storageRemove : Call σ Unit
  /-- The call `Translator.availability({sourceLanguage, targetLanguage})`. -/
  translatorAvailability : Json → Json → Call σ String
  /-- The call `Translator.create(options)`, followed by `addEventListener` when the flag is set. -/
  translatorCreate : Json → Json → Bool → Call σ Unit
  /-- The call `chrome.runtime.sendMessage({type: "SHOW_DOWNLOAD_TRANSLATOR", ...})`. -/
  sendMessage : Json → Json → Call σ Unit
  /-- Whether the message `USER_CONFIRMED_TRANSLATOR` arrives before the 60 s timer fires. -/
  userGesture : Call σ Bool
  /-- The call `translator.translate(text)`. -/
  translatorTranslate : Json → Call σ String
  /-- The call `LanguageDetector.availability()`. -/
  detectorAvailability : Call σ String
  /-- The call `LanguageDetector.create()`, followed by `addEventListener` when the flag is set. -/
  detectorCreate : Bool → Call σ Unit
  /-- The call `languageDetector.detect(text)`: the `detectedLanguage` of each entry, in order. -/
  detectorDetect : Json → Call σ (List String)

/-! ## tools.js -/

/-- The conversion `String(v)`, also used by template literals. -/
def jsString : Json → String
  | .null => "null"
  | .bool true => "true"
  | .bool false => "false"
  | .num _ shown => shown
  | .str s => s
  | .arr xs => joinItems xs
  | .obj _ => "[object Object]"
where
  /-- The elements of an array joined by commas; `null` joins as the empty text. -/
  joinItems : List Json → String
    | [] => ""
    | [x] => item x
    | x :: y :: rest => item x ++ "," ++ joinItems (y :: rest)
  /-- One element of a joined array. -/
  item : Json → String
    | .null => ""
    | .bool true => "true"
    | .bool false => "false"
    | .num _ shown => shown
    | .str s => s
    | .arr xs => joinItems xs
    | .obj _ => "[object Object]"

/-- A formal parameter with a default value: the default replaces `undefined`. -/
def orDefault (x : Option Json) (d : String) : Json :=
  match x with
  | some v => v
  | none => .str d

/-- The function `summarize(text, sharedContext = "This is a scientific article")`, tools.js lines 1-29.
The result `none` is `undefined`. -/
def summarize {σ : Type} (env : Env σ) (text sharedContext : Option Json) : Call σ (Option String) :=
  fun w =>
    match text with
    | none => (.ok (some ""), w)
    | some t =>
      if !t.truthy then (.ok (some ""), w)
      else
        match env.summarizerAvailability w with
        | (.error e, w1) => (.error e, w1)
        | (.ok availability, w1) =>
          if availability = "unavailable" then (.ok none, w1)
          else
            match env.summarizerCreate (availability != "available") w1 with
            | (.error e, w2) => (.error e, w2)
            | (.ok _, w2) =>
              match env.summarizerSummarize t (orDefault sharedContext "This is a scientific article") w2 with
              | (.error e, w3) => (.error e, w3)
              | (.ok res, w3) => (.ok (some res), w3)

/-- The function `rewrite(text, tone = "more-formal", context = "This is a scientific article")`,
tools.js lines 31-62. -/
def rewrite {σ : Type} (env : Env σ) (text tone context : Option Json) : Call σ (Option String) :=
  fun w =>
    match text with
    | none => (.ok (some ""), w)
    | some t =>
      if !t.truthy then (.ok (some ""), w)
      else
        let tone1 := orDefault tone "more-formal"
        let context1 := orDefault context "This is a scientific article"
        match env.rewriterAvailability w with
        | (.error e, w1) => (.error e, w1)
        | (.ok available, w1) =>
          if available = "unavailable" then (.ok none, w1)
          else
            match env.rewriterCreate tone1 context1 (available != "available") w1 with
            | (.error e, w2) => (.error e, w2)
            | (.ok _, w2) =>
              match env.rewriterRewrite t tone1 context1 w2 with
              | (.error e, w3) => (.error e, w3)
              | (.ok res, w3) => (.ok (some res), w3)

/-- The function `prompt(question)`, tools.js lines 64-116.  The `finally` clause runs
after the `try` and after the `catch`; a fault of its own replaces the result. -/
def prompt {σ : Type} (env : Env σ) (question : Option Json) : Call σ (Option String) :=
  fun w =>
    match env.storageGet w with
    | (.error e, w1) => (.error e, w1)
    | (.ok lumosAudioBlob, w1) =>
      match env.promptAvailability w1 with
      | (.error e, w2) => (.error e, w2)
      | (.ok availability, w2) =>
        if availability = "unavailable" then (.ok none, w2)
        else
          match env.promptCreate lumosAudioBlob (availability != "available") w2 with
          | (.error e, w3) => (.error e, w3)
          | (.ok _, w3) =>
            let attempt : Except Fault (Option String) × σ :=
              match env.promptRun (lumosAudioBlob && truthy? question) question w3 with
              | (.ok res, w4) => (.ok (some res), w4)
              | (.error error, w4) => (.ok (some ("Error: Prompt failed - " ++ error.message)), w4)
            match env.storageRemove attempt.2 with
            | (.error e, w5) => (.error e, w5)
            | (.ok _, w5) => (attempt.1, w5)

/-- The function `waitForUserGesture()`, tools.js lines 175-192. -/
def waitForUserGesture {σ : Type} (env : Env σ) : Call σ Unit :=
  fun w =>
    match env.userGesture w with
    | (.error e, w1) => (.error e, w1)
    | (.ok true, w1) => (.ok (), w1)
    | (.ok false, w1) => (.error ⟨"Error", "User gesture timeout"⟩, w1)

/-- The `catch` clause of `translate`, tools.js lines 167-173. -/
def translateCatch (error : Fault) : String :=
  if error.name = "NotAllowedError" then
    "Error: User gesture required for translation. Please try running the task again."
  else "Error: Translation failed - " ++ error.message

/-- The `try` block of `translate`, tools.js lines 144-166. -/
def translateTry {σ : Type} (env : Env σ) (text sourceLanguage targetLanguage : Json)
    (available : String) : Call σ String :=
  fun w =>
    let created : Except Fault Unit × σ :=
      if available = "available" then env.translatorCreate sourceLanguage targetLanguage false w
      else if available = "downloadable" ∨ available = "downloading" then
        match env.sendMessage sourceLanguage targetLanguage w with
        | (.error e, w1) => (.error e, w1)
        | (.ok _, w1) =>
          match waitForUserGesture env w1 with
          | (.error e, w2) => (.error e, w2)
          | (.ok _, w2) => env.translatorCreate sourceLanguage targetLanguage false w2
      else env.translatorCreate sourceLanguage targetLanguage true w
    match created with
    | (.error e, w3) => (.error e, w3)
    | (.ok _, w3) => env.translatorTranslate text w3

/-- The function `translate(text, sourceLanguage = "en", targetLanguage = "en")`,
tools.js lines 118-174. -/
def translate {σ : Type} (env : Env σ) (text sourceLanguage targetLanguage : Option Json) :
    Call σ (Option String) :=
  fun w =>
    match text with
    | none => (.ok (some "Error: No text provided for translation"), w)
    | some t =>
      if !t.truthy then (.ok (some "Error: No text provided for translation"), w)
      else
        let src := orDefault sourceLanguage "en"
        let tgt := orDefault targetLanguage "en"
        match env.translatorAvailability src tgt w with
        | (.error e, w1) => (.error e, w1)
        | (.ok available, w1) =>
          if available = "unavailable" then
            (.ok (some ("Error: Translation from " ++ jsString src ++ " to " ++ jsString tgt ++
              " is not available")), w1)
          else
            match translateTry env t src tgt available w1 with
            | (.ok res, w2) => (.ok (some res), w2)
            | (.error error, w2) => (.ok (some (translateCatch error)), w2)

/-- The text `String(res)` of the array that `detect` resolves with. -/
def detectedString : List String → String
  | [] => ""
  | [_] => "[object Object]"
  | _ :: y :: rest => "[object Object]," ++ detectedString (y :: rest)

/-- The function `languageDetector(text)`, tools.js lines 193-207. -/
def languageDetector {σ : Type} (env : Env σ) (text : Option Json) : Call σ (Option String) :=
  fun w =>
    match text with
    | none => (.ok (some ""), w)
    | some t =>
      if !t.truthy then (.ok (some ""), w)
      else
        match env.detectorAvailability w with
        | (.error e, w1) => (.error e, w1)
        | (.ok available, w1) =>
          if available = "unavailable" then (.ok none, w1)
          else
            match env.detectorCreate (available != "available") w1 with
            | (.error e, w2) => (.error e, w2)
            | (.ok _, w2) =>
              match env.detectorDetect t w2 with
              | (.error e, w3) => (.error e, w3)
              | (.ok res, w3) =>
                match res with
                | first :: _ =>
                  if first.data != [] then (.ok (some first), w3)
                  else (.ok (some (detectedString res)), w3)
                | [] => (.ok (some ""), w3)

/-! ## planner.js: texts -/

/-- The constant `PLANNER_SYSTEM`, planner.js lines 27-82. -/
def PLANNER_SYSTEM : String :=
  "\nYou are a planner that creates execution plans for text processing tasks.\n\nAVAILABLE FUNCTIONS:\n1. summarize - Summarizes text\n   args: \x7b text: string, sharedContext: string \x7d\n2. rewrite - Rewrites text in different tone/style  \n   args: \x7b text: string, tone: string, context: string \x7d\n   tone: \"more-formal\", \"more-casual\", or \"as-is\"\n3. prompt - Processes audio transcription or asks questions\n   For audio: use question \"What does this audio say?\"\n   args: \x7b question: string \x7d\n4. languageDetector - Detects text language\n   args: \x7b text: string \x7d\n5. translate - Translates text\n   args: \x7b text: string, sourceLanguage: string, targetLanguage: string \x7d\n\nRULES:\n- Only do what the user explicitly asks for\n- Don\x27t add extra steps unless requested\n- For \"transcribe audio\" → use prompt function only\n- For \"transcribe and translate\" → use prompt then translate\n- Use languageDetector if you don\x27t know the source language\n\nOUTPUT FORMAT:\n\x7b\"steps\": [\x7b\"name\": \"function_name\", \"args\": \x7b...\x7d\x7d], \"continueFlag\": true\x7d\nOR\n\x7b\"finalResponse\": \"result text\", \"continueFlag\": false\x7d\n\nVERY IMPORTANT - continueFlag rules:\n- If your response includes \"steps\" array → ALWAYS set \"continueFlag\": true\n- ONLY set \"continueFlag\": false when you have NO \"steps\" and are providing \"finalResponse\"\n- NEVER set \"continueFlag\": false when calling a function (when you have \"steps\")\n\nEXAMPLES:\nUser: \"summarize this\" → \x7b\"steps\": [\x7b\"name\": \"summarize\", \"args\": \x7b\"text\": \"...\", \"sharedContext\": \"...\"\x7d\x7d], \"continueFlag\": true\x7d\nUser: \"transcribe audio\" → \x7b\"steps\": [\x7b\"name\": \"prompt\", \"args\": \x7b\"question\": \"What does this audio say?\"\x7d\x7d], \"continueFlag\": true\x7d\nUser: \"translate to Spanish\" → \x7b\"steps\": [\x7b\"name\": \"translate\", \"args\": \x7b\"text\": \"...\", \"sourceLanguage\": \"en\", \"targetLanguage\": \"es\"\x7d\x7d], \"continueFlag\": true\x7d\n\nWhen you see \"Function [name] result: [result]\", provide the final response:\n\x7b\"finalResponse\": \"[result]\", \"continueFlag\": false\x7d\n\nWhen chaining operations (user says \"and\" or \"then\"):\n- Look for keywords: \"and\", \"then\", \"as\", \"also\", \"finally\"\n- If user requests multiple actions → do BOTH/MULTIPLE steps\n- Each step uses the RESULT from the previous step as input\n\n\nMULTI-STEP EXAMPLE:\nUser: \"rewrite this in simple form and translate to Spanish\"\nStep 1: \x7b\"steps\":[\x7b\"name\":\"rewrite\",\"args\":\x7b\"text\":\"...\",\"tone\":\"more-casual\",\"context\":\"...\"\x7d\x7d],\"continueFlag\":true\x7d\nWhen you see \"Function rewrite result: [result]\", then:\nStep 2: \x7b\"steps\":[\x7b\"name\":\"translate\",\"args\":\x7b\"text\":\"[use the previous result]\",\"sourceLanguage\":\"en\",\"targetLanguage\":\"es\"\x7d\x7d],\"continueFlag\":true\x7d\nWhen you see \"Function translate result: [result]\", then:\nFinal: \x7b\"finalResponse\":\"[result]\",\"continueFlag\":false\x7d\n"

/-- The first user turn, line 91. -/
def promptText (userInstruction selectedText : String) : String :=
  PLANNER_SYSTEM ++ "\nUser instruction: " ++ userInstruction ++ "\nSelected text: " ++
    selectedText ++ "\n\nRespond:"

/-- The text `${result}` of a capability result; `undefined` prints as such. -/
def showResult : Option String → String
  | some s => s
  | none => "undefined"

/-- The turn pushed after a capability returned, for instance lines 216-219. -/
def resultTurn (name : String) (result : Option String) : Turn :=
  ⟨"user", "Function " ++ name ++ " result: " ++ showResult result⟩

/-- One hexadecimal digit, lower case. -/
def hexDigit (n : Nat) : Char :=
  if n < 10 then Char.ofNat (48 + n) else Char.ofNat (87 + n)

/-- The characters `JSON.stringify` writes for one character of a string. -/
def quoteChar (c : Char) : List Char :=
  if c = '"' then ['\\', '"']
  else if c = '\\' then ['\\', '\\']
  else if c = '\n' then ['\\', 'n']
  else if c = '\r' then ['\\', 'r']
  else if c = '\t' then ['\\', 't']
  else if c.toNat = 8 then ['\\', 'b']
  else if c.toNat = 12 then ['\\', 'f']
  else if c.toNat < 32 then ['\\', 'u', '0', '0', hexDigit (c.toNat / 16), hexDigit (c.toNat % 16)]
  else [c]

/-- The text `JSON.stringify(s)` of a string. -/
def quoteString (s : String) : String :=
  String.mk ('"' :: (s.data.flatMap quoteChar ++ ['"']))

/-- The text `JSON.stringify(r)` of one step result; an `undefined` result is left out. -/
def stringifyResult (r : StepResult) : String :=
  match r.result with
  | some res => "\x7b\"step\":" ++ quoteString r.step ++ ",\"result\":" ++ quoteString res ++ "\x7d"
  | none => "\x7b\"step\":" ++ quoteString r.step ++ "\x7d"

/-- The text `JSON.stringify(stepResults)`. -/
def stringifyResults (rs : List StepResult) : String :=
  "[" ++ String.intercalate "," (rs.map stringifyResult) ++ "]"

/-- The feedback turn of lines 345-357. -/
def feedbackTurn (stepResults : List StepResult) : Turn :=
  ⟨"user", "The previous function completed successfully. Here are the results: " ++
    stringifyResults stepResults ++
    "\n\nProvide the final response with \"continueFlag\": false unless the user explicitly requested multiple actions.\n\nREMEMBER: If you\x27re providing finalResponse (no steps), use: \x7b\"finalResponse\": \"...\", \"continueFlag\": false\x7d\nIf you need to call another function, use: \x7b\"steps\": [\x7b\"name\": \"...\", \"args\": \x7b...\x7d\x7d], \"continueFlag\": true\x7d"⟩

/-- The text returned at line 436. -/
def fallbackText (selectedText : String) : String :=
  "I apologize, but I\x27m having trouble processing your request. The selected text is: \"" ++
    selectedText ++ "\". Please try again or rephrase your instruction."

/-! ## planner.js: one planning turn -/

/-- The variables of `planExecution` that live across iterations, the world, and two
records of what was asked of the platform: `prompts` holds the conversation handed
to each `session.prompt` call, `calls` the capability invocations with their
arguments, both in order. -/
structure LoopState (σ : Type) where
  contents : List Turn
  iteration : Nat
  finalResponse : Json
  world : σ
  prompts : List (List Turn)
  calls : List (String × List (Option Json))

/-- The statement `contents.push(turn)`. -/
def LoopState.push {σ : Type} (st : LoopState σ) (turn : Turn) : LoopState σ :=
  { st with contents := st.contents ++ [turn] }

/-- Lines 121-127: an empty `steps` array is deleted from the parsed object. -/
def dropEmptySteps (json : Json) : Json :=
  match json with
  | .obj kvs =>
    match lookupKey "steps" kvs with
    | some (.arr []) => .obj (deleteKey "steps" kvs)
    | _ => json
  | _ => json

/-- Lines 118-182: the parsed `json` and the new value of `finalResponse`, or the
fault thrown to the outer `catch`. -/
def parseResponse {σ : Type} (env : Env σ) (response : String) (finalResponse : Json) :
    Except Fault (Json × Json) :=
  match env.jsonParse response with
  | some parsed =>
    let json := dropEmptySteps parsed
    match getProp (some json) "finalResponse" with
    | some v => if v.truthy then .ok (json, v) else .ok (json, finalResponse)
    | none => .ok (json, finalResponse)
  | none =>
    match extractJsonText response with
    | some jsonText =>
      match env.jsonParse jsonText with
      | some parsed =>
        let json := dropEmptySteps parsed
        if truthy? (getProp (some json) "continueFlag") then .ok (json, .str jsonText)
        else .ok (json, finalResponse)
      | none => .error ⟨"Error", "Could not parse JSON from response: " ++ response⟩
    | none => .error ⟨"Error", "No JSON found in response: " ++ response⟩

/-- The values the loop `for (const step of json?.steps || [])` visits: nothing for a
falsy `steps`, the elements of an array, the characters of a string; `none` when
the value is not iterable and the loop header throws. -/
def stepItems (steps : Option Json) : Option (List Json) :=
  match steps with
  | none => some []
  | some (.arr xs) => some xs
  | some (.str s) => some (s.data.map (fun c => .str (String.mk [c])))
  | some v => if v.truthy then none else some []

/-- What the step loop leaves behind: it ran to its end or to a `break`, or a fault
left it. -/
inductive StepsResult (σ : Type) where
  | completed (st : LoopState σ) (stepResults : List StepResult)
  | fault (st : LoopState σ) (error : Fault)

/-- The capability call of one branch of the step loop, by name. -/
def invoke {σ : Type} (env : Env σ) (name : String) (args : List (Option Json)) :
    Call σ (Option String) :=
  match name, args with
  | "summarize", [text, sharedContext] => summarize env text sharedContext
  | "rewrite", [text, tone, context] => rewrite env text tone context
  | "prompt", [question] => prompt env question
  | "languageDetector", [text] => languageDetector env text
  | "translate", [text, src, tgt] => translate env text src tgt
  | _, _ => fun w => (.ok none, w)

/-- What the if/else chain of lines 186-341 does with one step. -/
inductive StepAction where
  /-- Reading `step.name` throws: the step is `null`. -/
  | broken
  /-- A validation failure: the message is pushed as a user turn and the loop breaks. -/
  | reject (message : String)
  /-- The capability `fn` is awaited with the arguments `actual`. -/
  | call (fn : String) (actual : List (Option Json))
  /-- No branch of the chain matches the name: the loop goes on to the next step. -/
  | pass

/-- The validation of one step, lines 186-341: the tests on `step.name` and on
`step.args` in the order of the source. -/
def validateStep (step : Json) : StepAction :=
  match step with
  | .null => .broken
  | _ =>
    let name := getProp (some step) "name"
    let args := getProp (some step) "args"
    if !truthy? name then .reject "Error: Missing step name"
    else if isStr name "summarize" then
      if !truthy? (getProp args "text") || !truthy? (getProp args "sharedContext") then
        .reject "Error: Missing required arguments for summarize"
      else .call "summarize" [getProp args "text", getProp args "sharedContext"]
    else if isStr name "rewrite" then
      if !truthy? (getProp args "text") || !truthy? (getProp args "tone") ||
          !truthy? (getProp args "context") then
        .reject "Error: Missing required arguments for rewrite"
      else .call "rewrite" [getProp args "text", getProp args "tone", getProp args "context"]
    else if isStr name "prompt" then
      if !truthy? (getProp args "question") then .reject "Error: Missing question"
      else .call "prompt" [getProp args "question"]
    else if isStr name "languageDetector" then
      if !truthy? (getProp args "text") then .reject "Error: Missing text for language detection"
      else .call "languageDetector" [getProp args "text"]
    else if isStr name "translate" then
      if !truthy? (getProp args "text") || !truthy? (getProp args "sourceLanguage") ||
          !truthy? (getProp args "targetLanguage") then
        .reject "Error: Missing required arguments for translate"
      else .call "translate"
        [getProp args "text", getProp args "sourceLanguage", getProp args "targetLanguage"]
    else .pass

/-- The step loop, lines 185-342, over the steps still to visit.  After a capability
returned, its result is pushed to `stepResults` and, as a user turn, to `contents`. -/
def execSteps {σ : Type} (env : Env σ) :
    List Json → LoopState σ → List StepResult → StepsResult σ
  | [], st, stepResults => .completed st stepResults
  | step :: rest, st, stepResults =>
    match validateStep step with
    | .broken =>
      .fault st ⟨"TypeError", "Cannot read properties of null (reading \x27name\x27)"⟩
    | .reject message => .completed (st.push ⟨"user", message⟩) stepResults
    | .pass => execSteps env rest st stepResults
    | .call fn actual =>
      match invoke env fn actual st.world with
      | (.error e, w) => .fault { st with world := w, calls := st.calls ++ [(fn, actual)] } e
      | (.ok result, w) =>
        execSteps env rest
          { st with world := w, calls := st.calls ++ [(fn, actual)],
                    contents := st.contents ++ [resultTurn fn result] }
          (stepResults ++ [⟨fn, result⟩])

/-- Lines 360-368: a plan with truthy `steps` and truthy `finalResponse` gets
`continueFlag = true` and loses its `finalResponse`. -/
def normalizePlan (json : Json) : Json :=
  if truthy? (getProp (some json) "steps") && truthy? (getProp (some json) "finalResponse") then
    match json with
    | .obj kvs => .obj (deleteKey "finalResponse" (setKey "continueFlag" (.bool true) kvs))
    | _ => json
  else json

/-- How the `try` block of one iteration ends: at line 376 with the new
`continueFlag` (`none` is `undefined`), or with a fault on its way to `catch`. -/
inductive TurnResult (σ : Type) where
  | completed (st : LoopState σ) (continueFlag : Option Json)
  | fault (st : LoopState σ) (error : Fault)

/-- Lines 345-357: the feedback turn is pushed when `stepResults.length > 0`. -/
def pushFeedback {σ : Type} (st : LoopState σ) (stepResults : List StepResult) : LoopState σ :=
  match stepResults with
  | [] => st
  | _ :: _ => st.push (feedbackTurn stepResults)

/-- Lines 344-376, after the step loop. -/
def afterSteps {σ : Type} (json : Json) (st : LoopState σ) (stepResults : List StepResult) :
    TurnResult σ :=
  let st1 := pushFeedback st stepResults
  let json1 := normalizePlan json
  let continueFlag := getProp (some json1) "continueFlag"
  match getProp (some json1) "finalResponse" with
  | some v =>
    if isFalse continueFlag && v.truthy then .completed { st1 with finalResponse := v } continueFlag
    else .completed st1 continueFlag
  | none => .completed st1 continueFlag

/-- Lines 183-376: the step loop over the parsed `json` and what follows it. -/
def runPlan {σ : Type} (env : Env σ) (json : Json) (st : LoopState σ) : TurnResult σ :=
  match stepItems (getProp (some json) "steps") with
  | none => .fault st ⟨"TypeError", "json.steps is not iterable"⟩
  | some steps =>
    match execSteps env steps st [] with
    | .fault st1 e => .fault st1 e
    | .completed st1 stepResults => afterSteps json st1 stepResults

/-- Lines 112-376: the `try` block once `session.prompt` has answered. -/
def handleResponse {σ : Type} (env : Env σ) (response : String) (st : LoopState σ) :
    TurnResult σ :=
  if response.data == [] then .fault st ⟨"Error", "Failed to get response from AI"⟩
  else
    match parseResponse env response st.finalResponse with
    | .error e => .fault (st.push ⟨"assistant", response⟩) e
    | .ok (json, finalResponse) =>
      runPlan env json { st.push ⟨"assistant", response⟩ with finalResponse := finalResponse }

/-- The `try` block, lines 101-376. -/
def tryBlock {σ : Type} (env : Env σ) (st : LoopState σ) : TurnResult σ :=
  match env.languageModelCreate st.world with
  | (.error e, w1) => .fault { st with world := w1 } e
  | (.ok _, w1) =>
    match env.sessionPrompt st.contents w1 with
    | (.error e, w2) => .fault { st with world := w2, prompts := st.prompts ++ [st.contents] } e
    | (.ok response, w2) =>
      handleResponse env response { st with world := w2, prompts := st.prompts ++ [st.contents] }

/-! ## planner.js: the loop -/

/-- The `catch` clause, lines 377-415.  Its second statement, line 379, reads the
variable `response`.  That name is declared with `const` inside the `try` block,
is not in scope in the `catch` block, and is bound nowhere else in the module, so
reading it throws a `ReferenceError` whatever fault was caught.  Lines 381-414
are never reached. -/
def catchClause (_error : Fault) : Outcome :=
  .threw ⟨"ReferenceError", "response is not defined"⟩

/-- The method call `finalResponse.includes(t)` on an array: strict equality with
one of its elements. -/
def arrayIncludes (xs : List Json) (t : String) : Bool :=
  xs.any (fun x => isStr (some x) t)

/-- Lines 429-444, after the loop. -/
def finish (selectedText : String) (finalResponse : Json) : Outcome :=
  if !finalResponse.truthy then .returned (.str (fallbackText selectedText))
  else
    match finalResponse with
    | .str s =>
      if includes s "need the selected text" || includes s "provide the text" then
        .returned (.str (fallbackText selectedText))
      else .returned (.str s)
    | .arr xs =>
      if arrayIncludes xs "need the selected text" || arrayIncludes xs "provide the text" then
        .returned (.str (fallbackText selectedText))
      else .returned (.arr xs)
    | _ => .threw ⟨"TypeError", "finalResponse.includes is not a function"⟩

/-- How `planExecution` settles, with the state it leaves. -/
structure Run (σ : Type) where
  outcome : Outcome
  final : LoopState σ

/-- The `while (continueFlag)` loop, lines 96-427, entered with a truthy flag.  The
first argument bounds the number of iterations; `none` means the bound was hit. -/
def loop {σ : Type} (env : Env σ) (selectedText : String) :
    Nat → LoopState σ → Option (Run σ)
  | 0, _ => none
  | fuel + 1, st =>
    match tryBlock env { st with iteration := st.iteration + 1 } with
    | .fault st1 error => some ⟨catchClause error, st1⟩
    | .completed st1 continueFlag =>
      if 15 ≤ st1.iteration then some ⟨finish selectedText st1.finalResponse, st1⟩
      else if truthy? continueFlag then loop env selectedText fuel st1
      else some ⟨finish selectedText st1.finalResponse, st1⟩

/-- The state at line 95, before the loop. -/
def initial {σ : Type} (userInstruction selectedText : String) (w : σ) : LoopState σ :=
  { contents := [⟨"user", promptText userInstruction selectedText⟩]
    iteration := 0
    finalResponse := .str ""
    world := w
    prompts := []
    calls := [] }

/-- The function `planExecution(userInstruction, selectedText)`, run for at most
`fuel` iterations. -/
def planExecutionFor {σ : Type} (fuel : Nat) (env : Env σ) (userInstruction selectedText : String)
    (w : σ) : Option (Run σ) :=
  loop env selectedText fuel (initial userInstruction selectedText w)

/-- The function `planExecution(userInstruction, selectedText)`. -/
def planExecution {σ : Type} (env : Env σ) (userInstruction selectedText : String) (w : σ) :
    Option (Run σ) :=
  planExecutionFor 15 env userInstruction selectedText w

/-! ## A reader for JSON texts

`Env.jsonParse` stands for the built-in `JSON.parse` and the theorems below hold
for every such function.  The closed examples need one to run; `readJson` is a
reader for the JSON grammar (ECMA-404).  It declines, with `none`, two kinds of
text that `JSON.parse` accepts and that no example uses: a number that is not a
plain integer of at most fifteen digits (its text form would need floating-point
formatting), and a `\u` escape (a lone surrogate is not a `Char`). -/

/-- JSON white space. -/
def isJsonSpace (c : Char) : Bool :=
  c = ' ' || c = '\n' || c = '\r' || c = '\t'

/-- What is left after leading JSON white space. -/
def skipJsonSpace : List Char → List Char
  | [] => []
  | c :: cs => if isJsonSpace c then skipJsonSpace cs else c :: cs

/-- The characters of a string literal after its opening quote, and what follows
the closing quote. -/
def readStringBody : List Char → Option (List Char × List Char)
  | [] => none
  | '"' :: rest => some ([], rest)
  | '\\' :: c :: rest =>
    let unescaped : Option Char :=
      if c = '"' then some '"'
      else if c = '\\' then some '\\'
      else if c = '/' then some '/'
      else if c = 'b' then some (Char.ofNat 8)
      else if c = 'f' then some (Char.ofNat 12)
      else if c = 'n' then some '\n'
      else if c = 'r' then some '\r'
      else if c = 't' then some '\t'
      else none
    match unescaped, readStringBody rest with
    | some u, some (body, after) => some (u :: body, after)
    | _, _ => none
  | c :: rest =>
    if c.toNat < 32 || c = '\\' then none
    else
      match readStringBody rest with
      | some (body, after) => some (c :: body, after)
      | none => none

/-- The leading decimal digits of a text, and what follows them. -/
def readDigits : List Char → List Char × List Char
  | [] => ([], [])
  | c :: cs =>
    if c.isDigit then ((readDigits cs).1.cons c, (readDigits cs).2) else ([], c :: cs)

/-- A number literal: a plain integer of at most fifteen digits. -/
def readNumber (l : List Char) : Option (Json × List Char) :=
  let negative := startsWith ['-'] l
  let body := if negative then l.drop 1 else l
  let digits := (readDigits body).1
  let after := (readDigits body).2
  if digits.length = 0 || 15 < digits.length then none
  else if startsWith ['0'] digits && 1 < digits.length then none
  else if startsWith ['.'] after || startsWith ['e'] after || startsWith ['E'] after then none
  else if startsWith ['0'] digits then some (.num false "0", after)
  else some (.num true (String.mk (if negative then '-' :: digits else digits)), after)

mutual

/-- A JSON value at the head of a text, and what follows it. -/
def readValue : Nat → List Char → Option (Json × List Char)
  | 0, _ => none
  | fuel + 1, l =>
    match skipJsonSpace l with
    | [] => none
    | '\x7b' :: rest =>
      match skipJsonSpace rest with
      | '\x7d' :: after => some (.obj [], after)
      | _ =>
        match readMembers fuel rest with
        | some (kvs, after) => some (.obj kvs, after)
        | none => none
    | '[' :: rest =>
      match skipJsonSpace rest with
      | ']' :: after => some (.arr [], after)
      | _ =>
        match readElements fuel rest with
        | some (xs, after) => some (.arr xs, after)
        | none => none
    | '"' :: rest =>
      match readStringBody rest with
      | some (body, after) => some (.str (String.mk body), after)
      | none => none
    | 't' :: 'r' :: 'u' :: 'e' :: after => some (.bool true, after)
    | 'f' :: 'a' :: 'l' :: 's' :: 'e' :: after => some (.bool false, after)
    | 'n' :: 'u' :: 'l' :: 'l' :: after => some (.null, after)
    | c :: rest => readNumber (c :: rest)

/-- The elements of an array after its opening bracket, through the closing one. -/
def readElements : Nat → List Char → Option (List Json × List Char)
  | 0, _ => none
  | fuel + 1, l =>
    match readValue fuel l with
    | none => none
    | some (x, after) =>
      match skipJsonSpace after with
      | ']' :: rest => some ([x], rest)
      | ',' :: rest =>
        match readElements fuel rest with
        | some (xs, final) => some (x :: xs, final)
        | none => none
      | _ => none

/-- The members of an object after its opening brace, through the closing one.  A
repeated key keeps the position of its first occurrence and the value of its last. -/
def readMembers : Nat → List Char → Option (List (String × Json) × List Char)
  | 0, _ => none
  | fuel + 1, l =>
    match skipJsonSpace l with
    | '"' :: rest =>
      match readStringBody rest with
      | none => none
      | some (key, after) =>
        match skipJsonSpace after with
        | ':' :: rest1 =>
          match readValue fuel rest1 with
          | none => none
          | some (v, after1) =>
            match skipJsonSpace after1 with
            | '\x7d' :: rest2 => some ([(String.mk key, v)], rest2)
            | ',' :: rest2 =>
              match readMembers fuel rest2 with
              | some (kvs, final) =>
                match lookupKey (String.mk key) kvs with
                | some later => some ((String.mk key, later) :: deleteKey (String.mk key) kvs, final)
                | none => some ((String.mk key, v) :: kvs, final)
              | none => none
            | _ => none
        | _ => none
    | _ => none

end

/-- A whole text read as one JSON value; `none` where `JSON.parse` throws. -/
def readJson (text : String) : Option Json :=
  match readValue (text.data.length + 1) text.data with
  | some (v, after) =>
    match skipJsonSpace after with
    | [] => some v
    | _ :: _ => none
  | none => none

/-! ## A platform for worked examples -/

/-- A platform whose world counts the planner replies handed out so far.  The
planner answers from a script (the empty text once the script is used up), every
model is available at once, and every capability answers with a fixed text. -/
def scripted (replies : List String) : Env Nat where
  jsonParse := readJson
  languageModelCreate := fun w => (.ok (), w)
  sessionPrompt := fun _ w => (.ok (replies.getD w ""), w + 1)
  summarizerAvailability := fun w => (.ok "available", w)
  summarizerCreate := fun _ w => (.ok (), w)
  summarizerSummarize := fun _ _ w => (.ok "Short summary.", w)
  rewriterAvailability := fun w => (.ok "available", w)
  rewriterCreate := fun _ _ _ w => (.ok (), w)
  rewriterRewrite := fun _ _ _ w => (.ok "Rewritten.", w)
  storageGet := fun w => (.ok false, w)
  promptAvailability := fun w => (.ok "available", w)
  promptCreate := fun _ _ w => (.ok (), w)
  promptRun := fun _ _ w => (.ok "Answer.", w)
  storageRemove := fun w => (.ok (), w)
  translatorAvailability := fun _ _ w => (.ok "available", w)
  translatorCreate := fun _ _ _ w => (.ok (), w)
  sendMessage := fun _ _ w => (.ok (), w)
  userGesture := fun w => (.ok true, w)
  translatorTranslate := fun _ w => (.ok "Hola.", w)
  detectorAvailability := fun w => (.ok "available", w)
  detectorCreate := fun _ w => (.ok (), w)
  detectorDetect := fun _ w => (.ok ["en"], w)

/-! ## Observations of a run -/

/-- The outcome of a run, when the run produced one. -/
def outcomeOf {σ : Type} (r : Option (Run σ)) : Option Outcome :=
  r.map (fun x => x.outcome)

/-- The text a run returned, when it returned a string. -/
def returnedText {σ : Type} (r : Option (Run σ)) : Option String :=
  match outcomeOf r with
  | some (.returned (.str s)) => some s
  | _ => none

/-- The fault a run threw to its caller, when it threw one. -/
def thrownFault {σ : Type} (r : Option (Run σ)) : Option Fault :=
  match outcomeOf r with
  | some (.threw e) => some e
  | _ => none

/-- The number of `session.prompt` calls of a run. -/
def plannerCalls {σ : Type} (r : Option (Run σ)) : Option Nat :=
  r.map (fun x => x.final.prompts.length)

/-- The names of the capabilities a run invoked, in order. -/
def invoked {σ : Type} (r : Option (Run σ)) : Option (List String) :=
  r.map (fun x => x.final.calls.map (fun c => c.1))

/-- The conversation a run leaves, without its first turn (the system text). -/
def laterTurns {σ : Type} (r : Option (Run σ)) : Option (List Turn) :=
  r.map (fun x => x.final.contents.drop 1)

/-- The state a step loop left. -/
def StepsResult.state {σ : Type} : StepsResult σ → LoopState σ
  | .completed st _ => st
  | .fault st _ => st

/-- The state a `try` block left. -/
def TurnResult.state {σ : Type} : TurnResult σ → LoopState σ
  | .completed st _ => st
  | .fault st _ => st

/-! ## Planner replies used in the worked examples -/

/-- Scenario A, turn 1: one `summarize` step with `continueFlag` true. -/
def summarizePlan : String :=
  "\x7b\"steps\":[\x7b\"name\":\"summarize\",\"args\":\x7b\"text\":\"Lorem ipsum...\",\"sharedContext\":\"...\"\x7d\x7d],\"continueFlag\":true\x7d"

/-- Scenario A, turn 2: the completion plan. -/
def summaryAnswer : String :=
  "\x7b\"finalResponse\":\"Short summary.\",\"continueFlag\":false\x7d"

/-- The replies of Scenario A. -/
def scenarioA : List String := [summarizePlan, summaryAnswer]

/-- The state Scenario A is in when its first turn is over. -/
def scenarioATurn1 : LoopState Nat :=
  (tryBlock (scripted scenarioA)
    { initial "summarize this" "Lorem ipsum..." 0 with iteration := 1 }).state

/-- The plan of Scenario A, turn 1, inside a markdown fence tagged `json`. -/
def fencedSummarizePlan : String :=
  "\x60\x60\x60json\n" ++ summarizePlan ++ "\n\x60\x60\x60"

/-- Scenario C, turn 1: a `translate` step without `targetLanguage`. -/
def translatePlan : String :=
  "\x7b\"steps\":[\x7b\"name\":\"translate\",\"args\":\x7b\"text\":\"hi\",\"sourceLanguage\":\"en\"\x7d\x7d],\"continueFlag\":true\x7d"

/-- The step of `translatePlan`, parsed. -/
def translateStep : Json :=
  .obj [("name", .str "translate"),
        ("args", .obj [("text", .str "hi"), ("sourceLanguage", .str "en")])]

/-- A completion plan that gives up. -/
def giveUpAnswer : String :=
  "\x7b\"finalResponse\":\"Could not translate.\",\"continueFlag\":false\x7d"

/-- A plan whose first step names a capability that does not exist and whose second
step is the `summarize` step of Scenario A. -/
def unknownThenSummarizePlan : String :=
  "\x7b\"steps\":[\x7b\"name\":\"proofread\",\"args\":\x7b\"text\":\"Lorem ipsum...\"\x7d\x7d,\x7b\"name\":\"summarize\",\"args\":\x7b\"text\":\"Lorem ipsum...\",\"sharedContext\":\"...\"\x7d\x7d],\"continueFlag\":true\x7d"

/-- The first step of `unknownThenSummarizePlan`, parsed. -/
def proofreadStep : Json :=
  .obj [("name", .str "proofread"), ("args", .obj [("text", .str "Lorem ipsum...")])]

/-- A complete `translate` plan. -/
def fullTranslatePlan : String :=
  "\x7b\"steps\":[\x7b\"name\":\"translate\",\"args\":\x7b\"text\":\"hi\",\"sourceLanguage\":\"en\",\"targetLanguage\":\"es\"\x7d\x7d],\"continueFlag\":true\x7d"

/-- The scripted platform, except that `Summarizer.create()` rejects. -/
def summarizerDown (replies : List String) : Env Nat :=
  { scripted replies with
    summarizerCreate := fun _ w => (.error ⟨"NotSupportedError", "The model is unavailable"⟩, w) }

/-- The scripted platform, except that `Translator.create()` rejects. -/
def translatorDown (replies : List String) : Env Nat :=
  { scripted replies with
    translatorCreate := fun _ _ _ w =>
      (.error ⟨"NotSupportedError", "The model is unavailable"⟩, w) }

/-- A plan with the `summarize` step of Scenario A and, against the output format,
a `finalResponse` and `continueFlag` false as well. -/
def mixedPlan : String :=
  "\x7b\"steps\":[\x7b\"name\":\"summarize\",\"args\":\x7b\"text\":\"Lorem ipsum...\",\"sharedContext\":\"...\"\x7d\x7d],\"finalResponse\":\"Premature answer.\",\"continueFlag\":false\x7d"

/-- The step of `summarizePlan` and of `mixedPlan`, parsed. -/
def summarizeStep : Json :=
  .obj [("name", .str "summarize"),
        ("args", .obj [("text", .str "Lorem ipsum..."), ("sharedContext", .str "...")])]

/-- The plan `mixedPlan`, parsed. -/
def mixedPlanParsed : List (String × Json) :=
  [("steps", .arr [summarizeStep]), ("finalResponse", .str "Premature answer."),
   ("continueFlag", .bool false)]

/-- The plan `mixedPlan` with an empty `finalResponse`. -/
def mixedEmptyPlan : String :=
  "\x7b\"steps\":[\x7b\"name\":\"summarize\",\"args\":\x7b\"text\":\"Lorem ipsum...\",\"sharedContext\":\"...\"\x7d\x7d],\"finalResponse\":\"\",\"continueFlag\":false\x7d"

/-- A plan that only says stop. -/
def stopPlan : String := "\x7b\"continueFlag\":false\x7d"

/-- A plan whose only step is `null`. -/
def nullStepPlan : String := "\x7b\"steps\":[null],\"continueFlag\":true\x7d"

/-- A plan whose `steps` is a number. -/
def numberStepsPlan : String := "\x7b\"steps\":5,\"continueFlag\":true\x7d"

/-- The names declared with `const` or `let` at the top of the `try` block
(lines 102, 111, 118, 184). -/
def tryBlockNames : List String := ["session", "response", "json", "stepResults"]

/-- The names a statement of the `catch` block can read besides the globals of the
host (none of which is called `response`): the catch parameter, the parameters
and variables of `planExecution` (lines 26-95), and the names of the module
(lines 3-12). -/
def catchBlockNames : List String :=
  ["error", "userInstruction", "selectedText", "PLANNER_SYSTEM", "contents", "promptText",
   "continueFlag", "iteration", "finalResponse", "rewrite", "summarize", "prompt",
   "languageDetector", "translate", "ensureTranslatorReady", "emitStackEvent", "planExecution"]

/-- The capability a step makes the step loop call, when it passes validation. -/
def calledName (step : Json) : Option String :=
  match validateStep step with
  | .call fn _ => some fn
  | _ => none

/-- A plan made of the `summarize` step of Scenario A and nothing else. -/
def stepsOnlyPlan : String :=
  "\x7b\"steps\":[\x7b\"name\":\"summarize\",\"args\":\x7b\"text\":\"Lorem ipsum...\",\"sharedContext\":\"...\"\x7d\x7d]\x7d"

/-- The plan `summarizePlan`, parsed. -/
def summarizePlanParsed : Json :=
  .obj [("steps", .arr [summarizeStep]), ("continueFlag", .bool true)]

/-- A completion plan whose answer asks for the selected text. -/
def askingAnswer : String :=
  "\x7b\"finalResponse\":\"I need the selected text to proceed.\",\"continueFlag\":false\x7d"

/-- A completion plan whose answer merely mentions the selected text. -/
def mentioningAnswer : String :=
  "\x7b\"finalResponse\":\"The selected text is short.\",\"continueFlag\":false\x7d"

/-- A plan with an answer and `continueFlag` true. -/
def interimAnswer : String :=
  "\x7b\"finalResponse\":\"Working on it.\",\"continueFlag\":true\x7d"

/-- The state of Scenario A when the step loop of its first turn is over. -/
def scenarioAStepDone : LoopState Nat :=
  { contents := (initial "summarize this" "Lorem ipsum..." 0).contents ++
      [⟨"assistant", summarizePlan⟩, resultTurn "summarize" (some "Short summary.")]
    iteration := 1
    finalResponse := .str ""
    world := 1
    prompts := [(initial "summarize this" "Lorem ipsum..." 0).contents]
    calls := [("summarize", [some (.str "Lorem ipsum..."), some (.str "...")])] }

/-- The text of claim C16: a completion plan whose answer holds a fenced `{x}`,
followed by prose. -/
def fenceInsideAnswer : String :=
  "\x7b\"finalResponse\":\"\x60\x60\x60\x7bx\x7d\x60\x60\x60\",\"continueFlag\":false\x7d Hope this helps."

/-- The part of `fenceInsideAnswer` from its first opening brace to its last closing
brace. -/
def fenceInsideAnswerObject : String :=
  "\x7b\"finalResponse\":\"\x60\x60\x60\x7bx\x7d\x60\x60\x60\",\"continueFlag\":false\x7d"

/-- The completion plan of Scenario A with an empty `steps` array added. -/
def emptyStepsAnswer : String :=
  "\x7b\"steps\":[],\"finalResponse\":\"Short summary.\",\"continueFlag\":false\x7d"

/-- The plan `emptyStepsAnswer`, parsed. -/
def emptyStepsAnswerParsed : List (String × Json) :=
  [("steps", .arr []), ("finalResponse", .str "Short summary."), ("continueFlag", .bool false)]

/-- A reader that hands out every plan with its empty `steps` array already removed. -/
def readJsonWithoutEmptySteps (text : String) : Option Json :=
  (readJson text).map dropEmptySteps

/-- The state of Scenario A when the planner's first text has been pushed. -/
def scenarioAPlanPushed : LoopState Nat :=
  { contents := (initial "summarize this" "Lorem ipsum..." 0).contents ++
      [⟨"assistant", summarizePlan⟩]
    iteration := 1
    finalResponse := .str ""
    world := 1
    prompts := [(initial "summarize this" "Lorem ipsum..." 0).contents]
    calls := [] }

/-! ## The claims' own vocabulary -/

/-- The required arguments of each capability, as the claim lists them. -/
def requiredArguments : String → List String
  | "summarize" => ["text", "sharedContext"]
  | "rewrite" => ["text", "tone", "context"]
  | "prompt" => ["question"]
  | "languageDetector" => ["text"]
  | "translate" => ["text", "sourceLanguage", "targetLanguage"]
  | _ => []

/-- An argument is absent or empty, as the claim puts it. -/
def absentOrEmpty (args : Option Json) (k : String) : Prop :=
  getProp args k = none ∨ getProp args k = some (.str "")

/-- The error turn the source pushes for a capability whose arguments are incomplete
(lines 194, 224, 253, 279, 310). -/
def missingArgumentsText : String → String
  | "summarize" => "Error: Missing required arguments for summarize"
  | "rewrite" => "Error: Missing required arguments for rewrite"
  | "prompt" => "Error: Missing question"
  | "languageDetector" => "Error: Missing text for language detection"
  | _ => "Error: Missing required arguments for translate"

/-! ## Frame lemmas -/

theorem execSteps_frame {σ : Type} (env : Env σ) (steps : List Json) :
    ∀ (st : LoopState σ) (rs : List StepResult),
      (execSteps env steps st rs).state.iteration = st.iteration ∧
      (execSteps env steps st rs).state.prompts = st.prompts ∧
      (execSteps env steps st rs).state.finalResponse = st.finalResponse := by
  induction steps with
  | nil => intro st rs; simp [execSteps, StepsResult.state]
  | cons step rest ih =>
    intro st rs
    unfold execSteps
    split
    · simp [StepsResult.state]
    · simp [StepsResult.state, LoopState.push]
    · exact ih st rs
    · split
      · simp [StepsResult.state]
      · simpa using ih _ _

theorem pushFeedback_frame {σ : Type} (st : LoopState σ) (rs : List StepResult) :
    (pushFeedback st rs).iteration = st.iteration ∧ (pushFeedback st rs).prompts = st.prompts ∧
      (pushFeedback st rs).finalResponse = st.finalResponse ∧
      (pushFeedback st rs).calls = st.calls ∧ (pushFeedback st rs).world = st.world := by
  cases rs <;> simp [pushFeedback, LoopState.push]

theorem afterSteps_frame {σ : Type} (json : Json) (st : LoopState σ) (rs : List StepResult) :
    (afterSteps json st rs).state.iteration = st.iteration ∧
      (afterSteps json st rs).state.prompts = st.prompts := by
  have h := pushFeedback_frame st rs
  dsimp only [afterSteps]
  split
  · split <;> simp [TurnResult.state, h.1, h.2.1]
  · simp [TurnResult.state, h.1, h.2.1]

theorem runPlan_frame {σ : Type} (env : Env σ) (json : Json) (st : LoopState σ) :
    (runPlan env json st).state.iteration = st.iteration ∧
      (runPlan env json st).state.prompts = st.prompts := by
  dsimp only [runPlan]
  split
  · simp [TurnResult.state]
  · rename_i steps _
    have h := execSteps_frame env steps st []
    split
    · rename_i st1 e h1
      rw [h1] at h
      exact ⟨h.1, h.2.1⟩
    · rename_i st1 rs h1
      rw [h1] at h
      have h2 := afterSteps_frame json st1 rs
      exact ⟨h2.1.trans h.1, h2.2.trans h.2.1⟩

theorem handleResponse_frame {σ : Type} (env : Env σ) (response : String) (st : LoopState σ) :
    (handleResponse env response st).state.iteration = st.iteration ∧
      (handleResponse env response st).state.prompts = st.prompts := by
  dsimp only [handleResponse]
  split
  · simp [TurnResult.state]
  · split
    · simp [TurnResult.state, LoopState.push]
    · rename_i json fr _
      have h := runPlan_frame env json
        { st.push ⟨"assistant", response⟩ with finalResponse := fr }
      exact h

theorem tryBlock_frame {σ : Type} (env : Env σ) (st : LoopState σ) :
    (tryBlock env st).state.iteration = st.iteration ∧
      (tryBlock env st).state.prompts.length ≤ st.prompts.length + 1 := by
  dsimp only [tryBlock]
  split
  · simp [TurnResult.state]
  · split
    · simp [TurnResult.state]
    · rename_i response w2 _
      have h := handleResponse_frame env response
        { st with world := w2, prompts := st.prompts ++ [st.contents] }
      rw [h.1, h.2]
      simp

/-- The loop settles once the bound on iterations covers the distance to the cap of
fifteen, and it never counts past the cap. -/
theorem loop_settles {σ : Type} (env : Env σ) (selectedText : String) :
    ∀ (fuel : Nat) (st : LoopState σ), 0 < fuel → 15 ≤ st.iteration + fuel →
      ∃ r, loop env selectedText fuel st = some r ∧
        (r.final.iteration ≤ 15 ∨ r.final.iteration = st.iteration + 1) ∧
        r.final.prompts.length + st.iteration ≤ st.prompts.length + r.final.iteration := by
  intro fuel
  induction fuel with
  | zero => intro st h; omega
  | succ fuel ih =>
    intro st _ hcap
    have hf := tryBlock_frame env { st with iteration := st.iteration + 1 }
    unfold loop
    split
    · rename_i st1 error h1
      rw [h1] at hf
      simp only [TurnResult.state] at hf
      exact ⟨_, rfl, Or.inr hf.1, by simp only; omega⟩
    · rename_i st1 continueFlag h1
      rw [h1] at hf
      simp only [TurnResult.state] at hf
      split
      · exact ⟨_, rfl, Or.inr hf.1, by simp only; omega⟩
      · rename_i hlt
        split
        · obtain ⟨r, hr, hit, hpr⟩ := ih st1 (by omega) (by omega)
          exact ⟨r, hr, Or.inl (by omega), by omega⟩
        · exact ⟨_, rfl, Or.inr hf.1, by simp only; omega⟩

/-- A larger bound on iterations does not change a run that settled. -/
theorem loop_mono {σ : Type} (env : Env σ) (selectedText : String) :
    ∀ (fuel : Nat) (st : LoopState σ) (r : Run σ),
      loop env selectedText fuel st = some r → loop env selectedText (fuel + 1) st = some r := by
  intro fuel
  induction fuel with
  | zero => intro st r h; simp [loop] at h
  | succ fuel ih =>
    intro st r h
    rw [loop] at h
    rw [loop]
    split
    · rename_i h1; simpa [h1] using h
    · rename_i st1 cf h1
      simp only [h1] at h
      split
      · rename_i h2; simpa [h2] using h
      · rename_i h2
        simp only [h2, if_false] at h
        split
        · rename_i h3
          simp only [h3, if_true] at h
          exact ih _ _ h
        · rename_i h3; simpa [h3] using h

theorem loop_mono_le {σ : Type} (env : Env σ) (selectedText : String) (st : LoopState σ)
    (r : Run σ) (fuel fuel1 : Nat) (hle : fuel ≤ fuel1)
    (h : loop env selectedText fuel st = some r) : loop env selectedText fuel1 st = some r := by
  induction hle with
  | refl => exact h
  | step _ ih => exact loop_mono env selectedText _ st r ih

/-! ## The claims -/

set_option maxRecDepth 100000

/-- C1 (the code departs from it): `planExecution` does not always settle with a
string.  When the planner gives no response, line 113 throws inside the `try`
block, the `catch` clause then throws a `ReferenceError` at line 379, and that
fault reaches the caller.  When the planner's final answer is the number 42,
line 432 throws a `TypeError` outside every `try` block. -/
theorem C1_absent_response_fault_escapes :
    outcomeOf (planExecution (scripted []) "summarize this" "Lorem ipsum..." 0) =
        some (.threw ⟨"ReferenceError", "response is not defined"⟩) ∧
      thrownFault (planExecution
          (scripted ["\x7b\"finalResponse\":42,\"continueFlag\":false\x7d"])
          "summarize this" "Lorem ipsum..." 0) =
        some ⟨"TypeError", "finalResponse.includes is not a function"⟩ := by
  constructor
  · rfl
  · decide!

/-- C2: when the planner's raw text on a turn parses directly into a completion
plan with no steps, `finalResponse` a non-empty string `s` free of the two
missing-text phrases and `continueFlag` false, the loop makes that one planner
call, no other, and `planExecution` returns exactly `s`. -/
theorem C2_completion_plan_returns_its_answer {σ : Type} (env : Env σ) (selectedText : String)
    (fuel : Nat) (st : LoopState σ) (w1 w2 : σ) (response s : String)
    (kvs : List (String × Json))
    (hcreate : env.languageModelCreate st.world = (.ok (), w1))
    (hprompt : env.sessionPrompt st.contents w1 = (.ok response, w2))
    (hresponse : response ≠ "")
    (hparse : env.jsonParse response = some (.obj kvs))
    (hsteps : lookupKey "steps" kvs = none)
    (hfinal : lookupKey "finalResponse" kvs = some (.str s))
    (hflag : lookupKey "continueFlag" kvs = some (.bool false))
    (hs : s ≠ "")
    (hneed : includes s "need the selected text" = false)
    (hprovide : includes s "provide the text" = false) :
    loop env selectedText (fuel + 1) st = some
      { outcome := .returned (.str s)
        final :=
          { contents := st.contents ++ [⟨"assistant", response⟩]
            iteration := st.iteration + 1
            finalResponse := .str s
            world := w2
            prompts := st.prompts ++ [st.contents]
            calls := st.calls } } := by
  have hr : (response.data == []) = false := by
    cases response with
    | mk data =>
      cases data with
      | nil => exact absurd rfl hresponse
      | cons c cs => rfl
  have hst : (Json.str s).truthy = true := by
    cases s with
    | mk data =>
      cases data with
      | nil => exact absurd rfl hs
      | cons c cs => rfl
  have hnorm : normalizePlan (.obj kvs) = .obj kvs := by
    simp [normalizePlan, getProp, hsteps, truthy?]
  have hplan : ∀ st0 : LoopState σ, runPlan env (.obj kvs) st0 =
      .completed { st0 with finalResponse := .str s } (some (.bool false)) := by
    intro st0
    simp [runPlan, getProp, hsteps, stepItems, execSteps, afterSteps, pushFeedback, hnorm,
      hfinal, hflag, isFalse, hst]
  have hparsed : ∀ fr, parseResponse env response fr = .ok (.obj kvs, .str s) := by
    intro fr
    simp [parseResponse, hparse, dropEmptySteps, hsteps, getProp, hfinal, hst]
  have htry : tryBlock env { st with iteration := st.iteration + 1 } =
      .completed
        { contents := st.contents ++ [⟨"assistant", response⟩]
          iteration := st.iteration + 1
          finalResponse := .str s
          world := w2
          prompts := st.prompts ++ [st.contents]
          calls := st.calls } (some (.bool false)) := by
    simp [tryBlock, hcreate, hprompt, handleResponse, hr, hparsed, hplan, LoopState.push]
  have hfin : finish selectedText (.str s) = .returned (.str s) := by
    simp [finish, hst, hneed, hprovide]
  rw [loop, htry]
  simp [hfin, truthy?, Json.truthy]

/-- C2, Scenario A: the run returns "Short summary." after two planner calls, and
the second turn is an instance of the theorem. -/
theorem C2_scenario_A :
    outcomeOf (planExecution (scripted scenarioA) "summarize this" "Lorem ipsum..." 0) =
        some (.returned (.str "Short summary.")) ∧
      plannerCalls (planExecution (scripted scenarioA) "summarize this" "Lorem ipsum..." 0) =
        some 2 ∧
      loop (scripted scenarioA) "Lorem ipsum..." 1 scenarioATurn1 = some
        { outcome := .returned (.str "Short summary.")
          final :=
            { contents := scenarioATurn1.contents ++ [⟨"assistant", summaryAnswer⟩]
              iteration := scenarioATurn1.iteration + 1
              finalResponse := .str "Short summary."
              world := 2
              prompts := scenarioATurn1.prompts ++ [scenarioATurn1.contents]
              calls := scenarioATurn1.calls } } :=
  ⟨by rfl, by decide!,
    C2_completion_plan_returns_its_answer (scripted scenarioA) "Lorem ipsum..." 0 scenarioATurn1
      1 2 summaryAnswer "Short summary."
      [("finalResponse", .str "Short summary."), ("continueFlag", .bool false)]
      (by rfl) (by rfl) (by decide) (by rfl) (by rfl) (by rfl) (by rfl) (by decide)
      (by decide!) (by decide!)⟩

/-- C3: whatever the platform does, `planExecution` settles, its iteration counter
ends at 15 or less, `session.prompt` was called at most 15 times, and a larger
bound on the number of iterations gives the same run. -/
theorem C3_iteration_never_exceeds_cap {σ : Type} (env : Env σ)
    (userInstruction selectedText : String) (w : σ) :
    ∃ r, planExecution env userInstruction selectedText w = some r ∧
      r.final.iteration ≤ 15 ∧ r.final.prompts.length ≤ 15 ∧
      r.final.prompts.length ≤ r.final.iteration ∧
      ∀ fuel, 15 ≤ fuel → planExecutionFor fuel env userInstruction selectedText w = some r := by
  obtain ⟨r, hr, hit, hpr⟩ :=
    loop_settles env selectedText 15 (initial userInstruction selectedText w) (by omega)
      (by simp [initial])
  simp only [initial, List.length_nil] at hit hpr
  refine ⟨r, hr, by omega, by omega, by omega, ?_⟩
  intro fuel hfuel
  exact loop_mono_le env selectedText _ r 15 fuel hfuel hr

/-- C4 (the code departs from it): fifteen turns that each hold the valid
continuation plan of Scenario A inside a fence tagged `json`.  The planner is
called 15 times and the loop stops, but the run returns the JSON text of the last
plan, which line 174 stored in `finalResponse`, and not the fallback text.  The
same plans without the fence give the fallback text. -/
theorem C4_fenced_plans_return_planner_text :
    plannerCalls (planExecution (scripted (List.replicate 15 fencedSummarizePlan))
        "summarize this" "Lorem ipsum..." 0) = some 15 ∧
      returnedText (planExecution (scripted (List.replicate 15 fencedSummarizePlan))
        "summarize this" "Lorem ipsum..." 0) = some summarizePlan ∧
      summarizePlan ≠ fallbackText "Lorem ipsum..." ∧
      returnedText (planExecution (scripted (List.replicate 15 summarizePlan))
        "summarize this" "Lorem ipsum..." 0) = some (fallbackText "Lorem ipsum...") := by
  refine ⟨by decide!, by decide!, by decide!, by decide!⟩

theorem absentOrEmpty_falsy (args : Option Json) (k : String) (h : absentOrEmpty args k) :
    truthy? (getProp args k) = false := by
  rcases h with h | h <;> simp [h, truthy?, Json.truthy]

/-- C5: a step that names one of the five capabilities and lacks a required argument
(absent or empty) ends the step loop at once: the error turn of that capability is
pushed, `stepResults` is left as it was, the world and the record of capability
calls are untouched, and the steps after it are not looked at. -/
theorem C5_incomplete_step_is_not_invoked {σ : Type} (env : Env σ) (step : Json)
    (rest : List Json) (st : LoopState σ) (rs : List StepResult) (name k : String)
    (hname : getProp (some step) "name" = some (.str name))
    (hk : k ∈ requiredArguments name)
    (hmissing : absentOrEmpty (getProp (some step) "args") k) :
    execSteps env (step :: rest) st rs =
        .completed (st.push ⟨"user", missingArgumentsText name⟩) rs ∧
      (st.push ⟨"user", missingArgumentsText name⟩).calls = st.calls ∧
      (st.push ⟨"user", missingArgumentsText name⟩).world = st.world ∧
      (st.push ⟨"user", missingArgumentsText name⟩).contents =
        st.contents ++ [⟨"user", missingArgumentsText name⟩] := by
  refine ⟨?_, rfl, rfl, rfl⟩
  have hfalsy := absentOrEmpty_falsy _ _ hmissing
  have hreject : validateStep step = .reject (missingArgumentsText name) := by
    have hfive : name = "summarize" ∨ name = "rewrite" ∨ name = "prompt" ∨
        name = "languageDetector" ∨ name = "translate" := by
      by_contra hnot
      simp only [not_or] at hnot
      unfold requiredArguments at hk
      split at hk <;> simp_all
    cases step with
    | obj kvs =>
      rcases hfive with h | h | h | h | h
      · subst h
        have hn : truthy? (some (Json.str "summarize")) = true := rfl
        have hk' : k = "text" ∨ k = "sharedContext" := by simpa [requiredArguments] using hk
        rcases hk' with hk' | hk' <;> subst hk' <;>
          simp [validateStep, hn, hname, isStr, hfalsy, missingArgumentsText]
      · subst h
        have hn : truthy? (some (Json.str "rewrite")) = true := rfl
        have hk' : k = "text" ∨ k = "tone" ∨ k = "context" := by simpa [requiredArguments] using hk
        rcases hk' with hk' | hk' | hk' <;> subst hk' <;>
          simp [validateStep, hn, hname, isStr, hfalsy, missingArgumentsText]
      · subst h
        have hn : truthy? (some (Json.str "prompt")) = true := rfl
        have hk' : k = "question" := by simpa [requiredArguments] using hk
        subst hk'
        simp [validateStep, hn, hname, isStr, hfalsy, missingArgumentsText]
      · subst h
        have hn : truthy? (some (Json.str "languageDetector")) = true := rfl
        have hk' : k = "text" := by simpa [requiredArguments] using hk
        subst hk'
        simp [validateStep, hn, hname, isStr, hfalsy, missingArgumentsText]
      · subst h
        have hn : truthy? (some (Json.str "translate")) = true := rfl
        have hk' : k = "text" ∨ k = "sourceLanguage" ∨ k = "targetLanguage" := by simpa [requiredArguments] using hk
        rcases hk' with hk' | hk' | hk' <;> subst hk' <;>
          simp [validateStep, hn, hname, isStr, hfalsy, missingArgumentsText]
    | null => simp [getProp] at hname
    | bool b => simp [getProp] at hname
    | num t shown => simp [getProp] at hname
    | str t => simp [getProp] at hname
    | arr xs => simp [getProp] at hname
  rw [execSteps, hreject]

/-- C5, Scenario C: the `translate` step without `targetLanguage` is an instance of
the theorem, and in the whole run no capability is invoked, the error turn follows
the plan, and the planner is called a second time. -/
theorem C5_scenario_C :
    (execSteps (scripted [translatePlan, giveUpAnswer]) [translateStep]
        (initial "translate this" "hi" 0) [] =
        .completed ((initial "translate this" "hi" 0).push
          ⟨"user", "Error: Missing required arguments for translate"⟩) [] ∧
      ((initial "translate this" "hi" (0 : Nat)).push
          ⟨"user", missingArgumentsText "translate"⟩).calls = [] ∧
      ((initial "translate this" "hi" (0 : Nat)).push
          ⟨"user", missingArgumentsText "translate"⟩).world = 0 ∧
      ((initial "translate this" "hi" (0 : Nat)).push
          ⟨"user", missingArgumentsText "translate"⟩).contents =
        (initial "translate this" "hi" (0 : Nat)).contents ++
          [⟨"user", missingArgumentsText "translate"⟩]) ∧
      invoked (planExecution (scripted [translatePlan, giveUpAnswer]) "translate this" "hi" 0) =
        some [] ∧
      plannerCalls (planExecution (scripted [translatePlan, giveUpAnswer]) "translate this" "hi" 0)
        = some 2 ∧
      laterTurns (planExecution (scripted [translatePlan, giveUpAnswer]) "translate this" "hi" 0) =
        some [⟨"assistant", translatePlan⟩,
              ⟨"user", "Error: Missing required arguments for translate"⟩,
              ⟨"assistant", giveUpAnswer⟩] :=
  ⟨C5_incomplete_step_is_not_invoked (scripted [translatePlan, giveUpAnswer]) translateStep []
      (initial "translate this" "hi" 0) [] "translate" "targetLanguage" (by rfl) (by decide)
      (Or.inl (by rfl)),
    by decide!, by decide!, by decide!⟩

/-- C6 (the code departs from it): a step named `proofread`, which is none of the
five capabilities, matches no branch of the if/else chain, which has no final
`else`.  No error turn is pushed and the loop goes on: the `summarize` step after
it is invoked and its result is fed back. -/
theorem C6_unknown_capability_is_skipped :
    readJson unknownThenSummarizePlan =
        some (.obj [("steps", .arr [proofreadStep, summarizeStep]),
                    ("continueFlag", .bool true)]) ∧
      invoked (planExecution (scripted [unknownThenSummarizePlan, summaryAnswer])
        "summarize this" "Lorem ipsum..." 0) = some ["summarize"] ∧
      laterTurns (planExecution (scripted [unknownThenSummarizePlan, summaryAnswer])
        "summarize this" "Lorem ipsum..." 0) =
        some [⟨"assistant", unknownThenSummarizePlan⟩,
              ⟨"user", "Function summarize result: Short summary."⟩,
              feedbackTurn [⟨"summarize", some "Short summary."⟩],
              ⟨"assistant", summaryAnswer⟩] ∧
      returnedText (planExecution (scripted [unknownThenSummarizePlan, summaryAnswer])
        "summarize this" "Lorem ipsum..." 0) = some "Short summary." := by
  refine ⟨by rfl, by decide!, by decide!, by decide!⟩

/-- C7 (as stated it fails): `Summarizer.create()` rejects while the `summarize`
step of Scenario A runs.  `summarize` has no `try/catch` and the step loop has
none either, so the call is recorded but no step result and no feedback turn
follow it, the planner is not called again, and the run ends with a fault. -/
theorem C7_capability_fault_aborts_the_run :
    thrownFault (planExecution (summarizerDown scenarioA) "summarize this" "Lorem ipsum..." 0) =
        some ⟨"ReferenceError", "response is not defined"⟩ ∧
      invoked (planExecution (summarizerDown scenarioA) "summarize this" "Lorem ipsum..." 0) =
        some ["summarize"] ∧
      plannerCalls (planExecution (summarizerDown scenarioA) "summarize this" "Lorem ipsum..." 0) =
        some 1 ∧
      laterTurns (planExecution (summarizerDown scenarioA) "summarize this" "Lorem ipsum..." 0) =
        some [⟨"assistant", summarizePlan⟩] := by
  refine ⟨by decide!, by decide!, by decide!, by decide!⟩

/-- C7 (amended): the step loop has no fault handling of its own.  A capability call
that raises leaves the step loop with that fault, for the `catch` clause, and
records no step result and no turn.  A capability call that returns is recorded
as a step result and as a user turn, and the loop goes on.  A failure is such a
returned result only where the capability catches it itself: a fault inside the
`try` block of `translate` comes back as the text of its `catch` clause, and a
fault of `languageModel.prompt` inside `prompt` as "Error: Prompt failed - ...". -/
theorem C7_only_caught_faults_become_results {σ : Type} (env : Env σ) :
    (∀ (step : Json) (rest : List Json) (st : LoopState σ) (rs : List StepResult)
        (fn : String) (actual : List (Option Json)) (e : Fault) (w : σ),
        validateStep step = .call fn actual →
        invoke env fn actual st.world = (.error e, w) →
        execSteps env (step :: rest) st rs =
          .fault { st with world := w, calls := st.calls ++ [(fn, actual)] } e) ∧
    (∀ (step : Json) (rest : List Json) (st : LoopState σ) (rs : List StepResult)
        (fn : String) (actual : List (Option Json)) (result : Option String) (w : σ),
        validateStep step = .call fn actual →
        invoke env fn actual st.world = (.ok result, w) →
        execSteps env (step :: rest) st rs =
          execSteps env rest
            { st with world := w, calls := st.calls ++ [(fn, actual)],
                      contents := st.contents ++ [resultTurn fn result] }
            (rs ++ [⟨fn, result⟩])) ∧
    (∀ (text src tgt : Json) (w w1 w2 : σ) (available : String) (error : Fault),
        text.truthy = true →
        env.translatorAvailability src tgt w = (.ok available, w1) →
        available ≠ "unavailable" →
        translateTry env text src tgt available w1 = (.error error, w2) →
        translate env (some text) (some src) (some tgt) w =
          (.ok (some (translateCatch error)), w2)) ∧
    (∀ (question : Option Json) (w w1 w2 w3 w4 w5 : σ) (blob : Bool) (availability : String)
        (error : Fault),
        env.storageGet w = (.ok blob, w1) →
        env.promptAvailability w1 = (.ok availability, w2) →
        availability ≠ "unavailable" →
        env.promptCreate blob (availability != "available") w2 = (.ok (), w3) →
        env.promptRun (blob && truthy? question) question w3 = (.error error, w4) →
        env.storageRemove w4 = (.ok (), w5) →
        prompt env question w = (.ok (some ("Error: Prompt failed - " ++ error.message)), w5)) := by
  refine ⟨?_, ?_, ?_, ?_⟩
  · intro step rest st rs fn actual e w hcall hraise
    rw [execSteps, hcall]
    simp only [hraise]
  · intro step rest st rs fn actual result w hcall hok
    rw [execSteps, hcall]
    simp only [hok]
  · intro text src tgt w w1 w2 available error htext havail hne htry
    simp [translate, htext, orDefault, havail, hne, htry]
  · intro question w w1 w2 w3 w4 w5 blob availability error hget havail hne hcreate hrun hremove
    simp [prompt, hget, havail, hne, hcreate, hrun, hremove]

/-- C7 (amended), at work: with `Summarizer.create()` rejecting, the `summarize` step
leaves the step loop with the fault; with `Translator.create()` rejecting,
`translate` returns the text of its `catch` clause, the run records it, feeds it
back, and the second planner call is made with it in the conversation. -/
theorem C7_summarize_raises_translate_reports :
    execSteps (summarizerDown scenarioA) [summarizeStep]
        (initial "summarize this" "Lorem ipsum..." 0) [] =
        .fault
          { initial "summarize this" "Lorem ipsum..." 0 with
            world := 0
            calls := [("summarize", [some (.str "Lorem ipsum..."), some (.str "...")])] }
          ⟨"NotSupportedError", "The model is unavailable"⟩ ∧
      translate (translatorDown [fullTranslatePlan, giveUpAnswer])
          (some (.str "hi")) (some (.str "en")) (some (.str "es")) 0 =
        (.ok (some "Error: Translation failed - The model is unavailable"), 0) ∧
      (planExecution (translatorDown [fullTranslatePlan, giveUpAnswer])
          "translate this" "hi" 0).map (fun r => (r.final.prompts.getD 1 []).drop 1) =
        some [⟨"assistant", fullTranslatePlan⟩,
              ⟨"user", "Function translate result: Error: Translation failed - The model is unavailable"⟩,
              feedbackTurn
                [⟨"translate", some "Error: Translation failed - The model is unavailable"⟩]] ∧
      returnedText (planExecution (translatorDown [fullTranslatePlan, giveUpAnswer])
          "translate this" "hi" 0) = some "Could not translate." :=
  ⟨(C7_only_caught_faults_become_results (summarizerDown scenarioA)).1 summarizeStep []
      (initial "summarize this" "Lorem ipsum..." 0) [] "summarize"
      [some (.str "Lorem ipsum..."), some (.str "...")]
      ⟨"NotSupportedError", "The model is unavailable"⟩ 0 (by rfl) (by rfl),
    (C7_only_caught_faults_become_results
        (translatorDown [fullTranslatePlan, giveUpAnswer])).2.2.1
      (.str "hi") (.str "en") (.str "es") 0 0 0 "available"
      ⟨"NotSupportedError", "The model is unavailable"⟩ (by rfl) (by rfl) (by decide) (by rfl),
    by decide!, by decide!⟩

/-- C8 (the code departs from it): the planner's first reply holds no JSON at all
and the second is the valid plan of Scenario A.  Line 180 throws, the `catch`
clause throws a `ReferenceError` at line 379 before it reaches the corrective
turn of lines 393-399, and the second reply is never asked for. -/
theorem C8_parse_failure_is_not_retried :
    readJson "I cannot help with that." = none ∧
      extractJsonText "I cannot help with that." = none ∧
      thrownFault (planExecution (scripted ["I cannot help with that.", summarizePlan])
        "summarize this" "Lorem ipsum..." 0) =
        some ⟨"ReferenceError", "response is not defined"⟩ ∧
      plannerCalls (planExecution (scripted ["I cannot help with that.", summarizePlan])
        "summarize this" "Lorem ipsum..." 0) = some 1 ∧
      laterTurns (planExecution (scripted ["I cannot help with that.", summarizePlan])
        "summarize this" "Lorem ipsum..." 0) =
        some [⟨"assistant", "I cannot help with that."⟩] := by
  refine ⟨by rfl, by rfl, by decide!, by decide!, by decide!⟩

/-- C9 (as stated it fails): a plan with the `summarize` step of Scenario A, an
empty `finalResponse` and `continueFlag` false.  The test of line 360 is a test
for truthiness, the empty text fails it, the plan is left as it is, and the loop
is done on that turn: one planner call, and the fallback text is returned. -/
theorem C9_empty_final_response_is_not_normalized :
    readJson mixedEmptyPlan =
        some (.obj [("steps", .arr [summarizeStep]), ("finalResponse", .str ""),
                    ("continueFlag", .bool false)]) ∧
      plannerCalls (planExecution (scripted [mixedEmptyPlan, summaryAnswer])
        "summarize this" "Lorem ipsum..." 0) = some 1 ∧
      returnedText (planExecution (scripted [mixedEmptyPlan, summaryAnswer])
        "summarize this" "Lorem ipsum..." 0) = some (fallbackText "Lorem ipsum...") := by
  refine ⟨by rfl, by decide!, by decide!⟩

/-- C9 (amended): when the parsed plan holds a non-empty `steps` array and a truthy
`finalResponse`, whatever its `continueFlag`, the turn runs the step loop over
those steps; if a fault leaves the step loop the `catch` clause is entered, and
otherwise the feedback turn is pushed, `finalResponse` stays as the parse left it,
and the loop does not stop on `continueFlag`: it plans again unless this was the
fifteenth iteration. -/
theorem C9_steps_with_final_response_continue {σ : Type} (env : Env σ) (selectedText : String)
    (fuel : Nat) (st : LoopState σ) (w1 w2 : σ) (response : String)
    (kvs : List (String × Json)) (finalResponse x v : Json) (xs : List Json)
    (hcreate : env.languageModelCreate st.world = (.ok (), w1))
    (hprompt : env.sessionPrompt st.contents w1 = (.ok response, w2))
    (hresponse : response ≠ "")
    (hparsed : parseResponse env response st.finalResponse = .ok (.obj kvs, finalResponse))
    (hsteps : lookupKey "steps" kvs = some (.arr (x :: xs)))
    (hfinal : lookupKey "finalResponse" kvs = some v)
    (hv : v.truthy = true) :
    loop env selectedText (fuel + 1) st =
      match execSteps env (x :: xs)
          { contents := st.contents ++ [⟨"assistant", response⟩]
            iteration := st.iteration + 1
            finalResponse := finalResponse
            world := w2
            prompts := st.prompts ++ [st.contents]
            calls := st.calls } [] with
      | .fault st1 error => some ⟨catchClause error, st1⟩
      | .completed st1 stepResults =>
        if 15 ≤ st.iteration + 1 then
          some ⟨finish selectedText finalResponse, pushFeedback st1 stepResults⟩
        else loop env selectedText fuel (pushFeedback st1 stepResults) := by
  have hr : (response.data == []) = false := by
    cases response with
    | mk data =>
      cases data with
      | nil => exact absurd rfl hresponse
      | cons c cs => rfl
  have hset : ∀ l : List (String × Json),
      lookupKey "continueFlag" (setKey "continueFlag" (.bool true) l) = some (.bool true) := by
    intro l
    induction l with
    | nil => simp [setKey, lookupKey]
    | cons kv rest ih =>
      obtain ⟨k, val⟩ := kv
      by_cases hk : k = "continueFlag"
      · simp [setKey, lookupKey, hk]
      · simp [setKey, lookupKey, hk, ih]
  have hdel : ∀ l : List (String × Json),
      lookupKey "continueFlag" (deleteKey "finalResponse" l) = lookupKey "continueFlag" l ∧
        lookupKey "finalResponse" (deleteKey "finalResponse" l) = none := by
    intro l
    induction l with
    | nil => simp [deleteKey, lookupKey]
    | cons kv rest ih =>
      obtain ⟨k, val⟩ := kv
      by_cases hk : k = "finalResponse"
      · subst hk
        simpa [deleteKey, lookupKey] using ih
      · by_cases hk2 : k = "continueFlag"
        · subst hk2
          simp [deleteKey, lookupKey, ih.2]
        · simp [deleteKey, lookupKey, hk, hk2, ih]
  have hnorm : normalizePlan (.obj kvs) =
      .obj (deleteKey "finalResponse" (setKey "continueFlag" (.bool true) kvs)) := by
    have ha : (Json.arr (x :: xs)).truthy = true := rfl
    simp [normalizePlan, getProp, hsteps, hfinal, truthy?, ha, hv]
  have hafter : ∀ (st1 : LoopState σ) (rs : List StepResult),
      afterSteps (.obj kvs) st1 rs = .completed (pushFeedback st1 rs) (some (.bool true)) := by
    intro st1 rs
    simp [afterSteps, hnorm, getProp, (hdel _).1, (hdel _).2, hset]
  have hframe := execSteps_frame env (x :: xs)
    { contents := st.contents ++ [⟨"assistant", response⟩]
      iteration := st.iteration + 1
      finalResponse := finalResponse
      world := w2
      prompts := st.prompts ++ [st.contents]
      calls := st.calls } []
  rw [loop]
  simp only [tryBlock, hcreate, hprompt, handleResponse, hr, hparsed, runPlan, getProp, hsteps,
    stepItems, LoopState.push]
  cases hexec : execSteps env (x :: xs)
    { contents := st.contents ++ [⟨"assistant", response⟩]
      iteration := st.iteration + 1
      finalResponse := finalResponse
      world := w2
      prompts := st.prompts ++ [st.contents]
      calls := st.calls } [] with
  | fault st1 error => simp [hexec]
  | completed st1 rs =>
    rw [hexec] at hframe
    simp only [StepsResult.state] at hframe
    have hfb := pushFeedback_frame st1 rs
    simp [hexec, hafter, truthy?, Json.truthy, hfb.1, hfb.2.2.1, hframe.1, hframe.2.2]

/-- C9 (amended), on `mixedPlan`: the plan states `continueFlag` false next to its
step and its `finalResponse`, and the first turn is an instance of the theorem. -/
theorem C9_mixed_plan_continues :
    loop (scripted [mixedPlan, stopPlan]) "Lorem ipsum..." 15
        (initial "summarize this" "Lorem ipsum..." 0) =
      match execSteps (scripted [mixedPlan, stopPlan]) [summarizeStep]
          { contents := (initial "summarize this" "Lorem ipsum..." 0).contents ++
              [⟨"assistant", mixedPlan⟩]
            iteration := 1
            finalResponse := .str "Premature answer."
            world := 1
            prompts := [(initial "summarize this" "Lorem ipsum..." 0).contents]
            calls := [] } [] with
      | .fault st1 error => some ⟨catchClause error, st1⟩
      | .completed st1 stepResults =>
        if 15 ≤ 0 + 1 then
          some ⟨finish "Lorem ipsum..." (.str "Premature answer."), pushFeedback st1 stepResults⟩
        else loop (scripted [mixedPlan, stopPlan]) "Lorem ipsum..." 14
          (pushFeedback st1 stepResults) :=
  C9_steps_with_final_response_continue (scripted [mixedPlan, stopPlan]) "Lorem ipsum..." 14
    (initial "summarize this" "Lorem ipsum..." 0) 0 1 mixedPlan mixedPlanParsed
    (.str "Premature answer.") summarizeStep (.str "Premature answer.") []
    (by rfl) (by rfl) (by decide) (by rfl) (by rfl) (by rfl) (by rfl)

/-- C10 (the code departs from it): the plan `mixedPlan` parses directly, so line 129
records its `finalResponse` before lines 360-368 delete it from the plan.  The
next turn stops the loop without a `finalResponse`, and the run returns the text
that should have been discarded, not the fallback text. -/
theorem C10_discarded_answer_is_returned :
    readJson mixedPlan = some (.obj mixedPlanParsed) ∧
      plannerCalls (planExecution (scripted [mixedPlan, stopPlan])
        "summarize this" "Lorem ipsum..." 0) = some 2 ∧
      returnedText (planExecution (scripted [mixedPlan, stopPlan])
        "summarize this" "Lorem ipsum..." 0) = some "Premature answer." ∧
      "Premature answer." ≠ fallbackText "Lorem ipsum..." := by
  refine ⟨by rfl, by decide!, by decide!, by decide!⟩

/-! ## Lemmas on texts -/

theorem startsWith_append (p rest : List Char) : startsWith p (p ++ rest) = true := by
  induction p with
  | nil => cases rest <;> rfl
  | cons c cs ih => simp [startsWith, ih]

theorem occursIn_of_startsWith (p l : List Char) (h : startsWith p l = true) :
    occursIn p l = true := by
  cases l with
  | nil => simpa [occursIn] using h
  | cons c cs => simp [occursIn, h]

theorem occursIn_append_left (p before l : List Char) (h : occursIn p l = true) :
    occursIn p (before ++ l) = true := by
  induction before with
  | nil => simpa using h
  | cons c cs ih => simp [occursIn, ih]

/-- A text occurs in every text built around it. -/
theorem includes_middle (before t after : String) :
    includes (before ++ t ++ after) t = true := by
  unfold includes
  simp only [String.data_append, List.append_assoc]
  exact occursIn_append_left _ _ _ (occursIn_of_startsWith _ _ (startsWith_append _ _))

/-! ## The ways a run ends -/

/-- A run that settles ends at line 436 or 444 with the result of `finish`, or in
the `catch` clause. -/
theorem loop_outcome {σ : Type} (env : Env σ) (selectedText : String) :
    ∀ (fuel : Nat) (st : LoopState σ) (r : Run σ), loop env selectedText fuel st = some r →
      r.outcome = finish selectedText r.final.finalResponse ∨
        r.outcome = .threw ⟨"ReferenceError", "response is not defined"⟩ := by
  intro fuel
  induction fuel with
  | zero => intro st r h; simp [loop] at h
  | succ fuel ih =>
    intro st r h
    rw [loop] at h
    split at h
    · simp only [Option.some.injEq] at h
      subst h
      exact Or.inr rfl
    · split at h
      · simp only [Option.some.injEq] at h
        subst h
        exact Or.inl rfl
      · split at h
        · exact ih _ _ h
        · simp only [Option.some.injEq] at h
          subst h
          exact Or.inl rfl

/-- C14: a run that does not end in the `catch` clause ends with the result of
lines 429-444 on the recorded final answer.  For a recorded answer that is a
string, that result is the fallback text when the answer is empty or contains
"need the selected text" or "provide the text", and the answer itself, unchanged,
in every other case.  The fallback text is a function of the input text alone and
contains it verbatim. -/
theorem C14_fallback_or_recorded_answer {σ : Type} (env : Env σ)
    (userInstruction selectedText : String) (w : σ) :
    (∃ r, planExecution env userInstruction selectedText w = some r ∧
      (r.outcome = finish selectedText r.final.finalResponse ∨
        r.outcome = .threw ⟨"ReferenceError", "response is not defined"⟩)) ∧
    (∀ s : String, finish selectedText (.str s) =
      if s = "" ∨ includes s "need the selected text" = true ∨
          includes s "provide the text" = true then
        .returned (.str (fallbackText selectedText))
      else .returned (.str s)) ∧
    includes (fallbackText selectedText) selectedText = true := by
  refine ⟨?_, ?_, ?_⟩
  · obtain ⟨r, hr, _⟩ :=
      loop_settles env selectedText 15 (initial userInstruction selectedText w) (by omega)
        (by simp [initial])
    exact ⟨r, hr, loop_outcome env selectedText 15 _ r hr⟩
  · intro s
    cases s with
    | mk data =>
      cases data with
      | nil => simp [finish, Json.truthy]
      | cons c cs =>
        have hne : (String.mk (c :: cs)) ≠ "" := by
          intro h
          have := congrArg String.data h
          simp at this
        by_cases h1 : includes (String.mk (c :: cs)) "need the selected text" = true
        · simp [finish, Json.truthy, h1]
        · by_cases h2 : includes (String.mk (c :: cs)) "provide the text" = true
          · simp [finish, Json.truthy, h2]
          · simp [finish, Json.truthy, h1, h2, hne]
  · exact includes_middle _ _ _

/-- C19: when a fault leaves the `try` block of an iteration, whatever its kind,
the run ends there with the `ReferenceError` of line 379: `response` is a name of
the `try` block and not one the `catch` block can read.  The state is the one the
`try` block left, so the handler pushed no turn, the planner is not called again,
and no text is returned. -/
theorem C19_handler_faults_reading_response {σ : Type} (env : Env σ) (selectedText : String)
    (fuel : Nat) (st st1 : LoopState σ) (error : Fault)
    (hfault : tryBlock env { st with iteration := st.iteration + 1 } = .fault st1 error) :
    loop env selectedText (fuel + 1) st =
        some ⟨.threw ⟨"ReferenceError", "response is not defined"⟩, st1⟩ ∧
      "response" ∈ tryBlockNames ∧ "response" ∉ catchBlockNames := by
  refine ⟨?_, by decide, by decide⟩
  rw [loop, hfault]
  rfl

/-- C19, at work: a plan whose only step is `null` makes line 186 throw a `TypeError`;
the run ends with the `ReferenceError` in the state the `try` block left.  The same
end follows an absent response, a text without JSON, a `steps` value that is not
iterable, and a rejected `Summarizer.create()`. -/
theorem C19_null_step_ends_in_reference_error :
    (loop (scripted [nullStepPlan, summaryAnswer]) "Lorem ipsum..." 15
        (initial "summarize this" "Lorem ipsum..." 0) =
        some ⟨.threw ⟨"ReferenceError", "response is not defined"⟩,
          { contents := (initial "summarize this" "Lorem ipsum..." 0).contents ++
              [⟨"assistant", nullStepPlan⟩]
            iteration := 1
            finalResponse := .str ""
            world := 1
            prompts := [(initial "summarize this" "Lorem ipsum..." 0).contents]
            calls := [] }⟩ ∧
      "response" ∈ tryBlockNames ∧ "response" ∉ catchBlockNames) ∧
    thrownFault (planExecution (scripted []) "summarize this" "Lorem ipsum..." 0) =
      some ⟨"ReferenceError", "response is not defined"⟩ ∧
    thrownFault (planExecution (scripted ["No plan today."]) "summarize this" "Lorem ipsum..." 0) =
      some ⟨"ReferenceError", "response is not defined"⟩ ∧
    thrownFault (planExecution (scripted [numberStepsPlan]) "summarize this" "Lorem ipsum..." 0) =
      some ⟨"ReferenceError", "response is not defined"⟩ ∧
    thrownFault (planExecution (summarizerDown scenarioA) "summarize this" "Lorem ipsum..." 0) =
      some ⟨"ReferenceError", "response is not defined"⟩ :=
  ⟨C19_handler_faults_reading_response (scripted [nullStepPlan, summaryAnswer]) "Lorem ipsum..."
      14 (initial "summarize this" "Lorem ipsum..." 0) _
      ⟨"TypeError", "Cannot read properties of null (reading \x27name\x27)"⟩ (by rfl),
    by decide!, by decide!, by decide!, by decide!⟩

/-! ## The conversation only grows -/

theorem execSteps_grows {σ : Type} (env : Env σ) (steps : List Json) :
    ∀ (st : LoopState σ) (rs : List StepResult),
      st.contents <+: (execSteps env steps st rs).state.contents := by
  induction steps with
  | nil => intro st rs; simp [execSteps, StepsResult.state]
  | cons step rest ih =>
    intro st rs
    unfold execSteps
    split
    · simp [StepsResult.state]
    · simp [StepsResult.state, LoopState.push]
    · exact ih st rs
    · split
      · simp [StepsResult.state]
      · refine List.IsPrefix.trans ?_ (ih _ _)
        simp

theorem pushFeedback_grows {σ : Type} (st : LoopState σ) (rs : List StepResult) :
    st.contents <+: (pushFeedback st rs).contents := by
  cases rs <;> simp [pushFeedback, LoopState.push]

theorem afterSteps_grows {σ : Type} (json : Json) (st : LoopState σ) (rs : List StepResult) :
    st.contents <+: (afterSteps json st rs).state.contents := by
  have h := pushFeedback_grows st rs
  dsimp only [afterSteps]
  split
  · split <;> simpa [TurnResult.state] using h
  · simpa [TurnResult.state] using h

theorem runPlan_grows {σ : Type} (env : Env σ) (json : Json) (st : LoopState σ) :
    st.contents <+: (runPlan env json st).state.contents := by
  dsimp only [runPlan]
  split
  · simp [TurnResult.state]
  · rename_i steps _
    have h := execSteps_grows env steps st []
    split
    · rename_i st1 e h1
      rw [h1] at h
      exact h
    · rename_i st1 rs h1
      rw [h1] at h
      exact List.IsPrefix.trans h (afterSteps_grows json st1 rs)

theorem handleResponse_grows {σ : Type} (env : Env σ) (response : String) (st : LoopState σ) :
    st.contents <+: (handleResponse env response st).state.contents := by
  dsimp only [handleResponse]
  split
  · simp [TurnResult.state]
  · split
    · simp [TurnResult.state, LoopState.push]
    · rename_i json fr _
      have h := runPlan_grows env json
        { st.push ⟨"assistant", response⟩ with finalResponse := fr }
      exact List.IsPrefix.trans (by simp [LoopState.push]) h

/-- One iteration hands the conversation to the planner at most once, as it stands
at the start of the iteration, and only appends to it. -/
theorem tryBlock_grows {σ : Type} (env : Env σ) (st : LoopState σ) :
    st.contents <+: (tryBlock env st).state.contents ∧
      ((tryBlock env st).state.prompts = st.prompts ∨
        (tryBlock env st).state.prompts = st.prompts ++ [st.contents]) := by
  dsimp only [tryBlock]
  split
  · simp [TurnResult.state]
  · split
    · simp [TurnResult.state]
    · rename_i response w2 _
      have h := handleResponse_grows env response
        { st with world := w2, prompts := st.prompts ++ [st.contents] }
      have h2 := handleResponse_frame env response
        { st with world := w2, prompts := st.prompts ++ [st.contents] }
      exact ⟨h, Or.inr h2.2⟩

/-- The loop keeps every conversation it handed to the planner as an initial
segment of the conversation it ends with. -/
theorem loop_grows {σ : Type} (env : Env σ) (selectedText : String) :
    ∀ (fuel : Nat) (st : LoopState σ) (r : Run σ), loop env selectedText fuel st = some r →
      (∀ c ∈ st.prompts, c <+: st.contents) → List.Pairwise (fun a b => a <+: b) st.prompts →
      st.contents <+: r.final.contents ∧ (∀ c ∈ r.final.prompts, c <+: r.final.contents) ∧
        List.Pairwise (fun a b => a <+: b) r.final.prompts ∧ st.prompts <+: r.final.prompts := by
  intro fuel
  induction fuel with
  | zero => intro st r h; simp [loop] at h
  | succ fuel ih =>
    intro st r h hinv hpair
    have hp := tryBlock_grows env { st with iteration := st.iteration + 1 }
    have step : ∀ st1 : LoopState σ,
        (tryBlock env { st with iteration := st.iteration + 1 }).state = st1 →
        st.contents <+: st1.contents ∧ (∀ c ∈ st1.prompts, c <+: st1.contents) ∧
          List.Pairwise (fun a b => a <+: b) st1.prompts ∧ st.prompts <+: st1.prompts := by
      intro st1 h1
      rw [h1] at hp
      obtain ⟨hc, hpr⟩ := hp
      simp only at hc hpr
      rcases hpr with hpr | hpr
      · rw [hpr]
        exact ⟨hc, fun c hcin => List.IsPrefix.trans (hinv c hcin) hc, hpair,
          List.prefix_refl _⟩
      · rw [hpr]
        refine ⟨hc, ?_, ?_, List.prefix_append _ _⟩
        · intro c hcin
          rcases List.mem_append.1 hcin with hcin | hcin
          · exact List.IsPrefix.trans (hinv c hcin) hc
          · simp only [List.mem_singleton] at hcin
            rw [hcin]
            exact hc
        · rw [List.pairwise_append]
          refine ⟨hpair, List.pairwise_singleton _ _, ?_⟩
          intro a ha b hb
          simp only [List.mem_singleton] at hb
          rw [hb]
          exact hinv a ha
    rw [loop] at h
    split at h
    · rename_i st1 error h1
      simp only [Option.some.injEq] at h
      subst h
      exact step st1 (by rw [h1]; rfl)
    · rename_i st1 cf h1
      have hs := step st1 (by rw [h1]; rfl)
      split at h
      · simp only [Option.some.injEq] at h
        subst h
        exact hs
      · split at h
        · obtain ⟨a, b, c, d⟩ := ih st1 r h hs.2.1 hs.2.2.1
          exact ⟨List.IsPrefix.trans hs.1 a, b, c, List.IsPrefix.trans hs.2.2.2 d⟩
        · simp only [Option.some.injEq] at h
          subst h
          exact hs

/-- Every conversation the loop hands to the planner starts with the turns the
loop started with. -/
theorem loop_base {σ : Type} (env : Env σ) (selectedText : String) (base : List Turn) :
    ∀ (fuel : Nat) (st : LoopState σ) (r : Run σ), loop env selectedText fuel st = some r →
      base <+: st.contents → (∀ c ∈ st.prompts, base <+: c) →
      ∀ c ∈ r.final.prompts, base <+: c := by
  intro fuel
  induction fuel with
  | zero => intro st r h; simp [loop] at h
  | succ fuel ih =>
    intro st r h hbase hinv
    have hp := tryBlock_grows env { st with iteration := st.iteration + 1 }
    have step : ∀ st1 : LoopState σ,
        (tryBlock env { st with iteration := st.iteration + 1 }).state = st1 →
        base <+: st1.contents ∧ ∀ c ∈ st1.prompts, base <+: c := by
      intro st1 h1
      rw [h1] at hp
      obtain ⟨hc, hpr⟩ := hp
      simp only at hc hpr
      refine ⟨List.IsPrefix.trans hbase hc, ?_⟩
      rcases hpr with hpr | hpr
      · rw [hpr]
        exact hinv
      · rw [hpr]
        intro c hcin
        rcases List.mem_append.1 hcin with hcin | hcin
        · exact hinv c hcin
        · simp only [List.mem_singleton] at hcin
          rw [hcin]
          exact hbase
    rw [loop] at h
    split at h
    · rename_i st1 error h1
      simp only [Option.some.injEq] at h
      subst h
      exact (step st1 (by rw [h1]; rfl)).2
    · rename_i st1 cf h1
      have hs := step st1 (by rw [h1]; rfl)
      split at h
      · simp only [Option.some.injEq] at h
        subst h
        exact hs.2
      · split at h
        · exact ih st1 r h hs.1 hs.2
        · simp only [Option.some.injEq] at h
          subst h
          exact hs.2

/-- C12: the conversation is append-only.  The run ends with a conversation whose
first turn is the user turn made of the system text, the instruction and the
input text; every conversation it handed to the planner starts with that turn
and is an initial segment of every later one and of the final one; and each
stage of an iteration (the whole `try` block, the step loop, the feedback) leaves
the conversation it found as an initial segment of the one it leaves. -/
theorem C12_conversation_is_append_only {σ : Type} (env : Env σ)
    (userInstruction selectedText : String) (w : σ) :
    (∃ r, planExecution env userInstruction selectedText w = some r ∧
      [⟨"user", promptText userInstruction selectedText⟩] <+: r.final.contents ∧
      (∀ c ∈ r.final.prompts,
        [⟨"user", promptText userInstruction selectedText⟩] <+: c ∧ c <+: r.final.contents) ∧
      List.Pairwise (fun a b => a <+: b) r.final.prompts) ∧
    (∀ st : LoopState σ, st.contents <+: (tryBlock env st).state.contents) ∧
    (∀ (steps : List Json) (st : LoopState σ) (rs : List StepResult),
      st.contents <+: (execSteps env steps st rs).state.contents) ∧
    (∀ (json : Json) (st : LoopState σ) (rs : List StepResult),
      st.contents <+: (afterSteps json st rs).state.contents) ∧
    includes (promptText userInstruction selectedText) PLANNER_SYSTEM = true ∧
    includes (promptText userInstruction selectedText) userInstruction = true ∧
    includes (promptText userInstruction selectedText) selectedText = true := by
  refine ⟨?_, fun st => (tryBlock_grows env st).1, execSteps_grows env, afterSteps_grows,
    ?_, ?_, ?_⟩
  · obtain ⟨r, hr, _⟩ :=
      loop_settles env selectedText 15 (initial userInstruction selectedText w) (by omega)
        (by simp [initial])
    have h1 := loop_grows env selectedText 15 _ r hr (by simp [initial]) (by simp [initial])
    have h2 := loop_base env selectedText [⟨"user", promptText userInstruction selectedText⟩]
      15 _ r hr (by simp [initial]) (by simp [initial])
    exact ⟨r, hr, by simpa [initial] using h1.1, fun c hc => ⟨h2 c hc, h1.2.1 c hc⟩, h1.2.2.1⟩
  · have h := includes_middle "" PLANNER_SYSTEM
      ("\nUser instruction: " ++ userInstruction ++ "\nSelected text: " ++ selectedText ++
        "\n\nRespond:")
    simpa [promptText, String.append_assoc] using h
  · have h := includes_middle (PLANNER_SYSTEM ++ "\nUser instruction: ") userInstruction
      ("\nSelected text: " ++ selectedText ++ "\n\nRespond:")
    simpa [promptText, String.append_assoc] using h
  · exact includes_middle _ _ _

/-! ## Step results -/

/-- The step loop adds one step result per capability call, in the order of the
calls, and the calls follow the order of the steps in the plan. -/
theorem execSteps_results {σ : Type} (env : Env σ) (steps : List Json) :
    ∀ (st st1 : LoopState σ) (rs rs1 : List StepResult),
      execSteps env steps st rs = .completed st1 rs1 →
      ∃ added, rs1 = rs ++ added ∧
        st1.calls.map (fun c => c.1) = st.calls.map (fun c => c.1) ++ added.map (fun r => r.step) ∧
        added.map (fun r => r.step) <+: steps.filterMap calledName := by
  induction steps with
  | nil =>
    intro st st1 rs rs1 h
    simp only [execSteps, StepsResult.completed.injEq] at h
    obtain ⟨h1, h2⟩ := h
    subst h1 h2
    exact ⟨[], by simp⟩
  | cons step rest ih =>
    intro st st1 rs rs1 h
    unfold execSteps at h
    split at h
    · simp at h
    · rename_i message hv
      simp only [StepsResult.completed.injEq] at h
      obtain ⟨h1, h2⟩ := h
      subst h1 h2
      exact ⟨[], by simp [LoopState.push]⟩
    · rename_i hv
      obtain ⟨added, h1, h2, h3⟩ := ih st st1 rs rs1 h
      refine ⟨added, h1, h2, ?_⟩
      simpa [List.filterMap_cons, calledName, hv] using h3
    · rename_i fn actual hv
      split at h
      · simp at h
      · rename_i result w hinv
        obtain ⟨added, h1, h2, h3⟩ := ih _ st1 _ rs1 h
        refine ⟨⟨fn, result⟩ :: added, by simp [h1], by simp [h2], ?_⟩
        simp only [List.filterMap_cons, calledName, hv, List.map_cons]
        exact (List.prefix_cons_inj fn).2 h3

/-- C18: after the step loop, the feedback turn is pushed exactly when the turn has at
least one step result, as a user turn whose text holds the serialized list of all
of them; the step results are one per capability call of the turn, in the order of
the calls, which is the order of the steps in the plan. -/
theorem C18_feedback_holds_all_step_results {σ : Type} (env : Env σ) :
    (∀ (json : Json) (steps : List Json) (st st1 : LoopState σ) (rs : List StepResult),
      stepItems (getProp (some json) "steps") = some steps →
      execSteps env steps st [] = .completed st1 rs →
      (runPlan env json st).state.contents =
          st1.contents ++ (if rs = [] then [] else [feedbackTurn rs]) ∧
        st1.calls.map (fun c => c.1) = st.calls.map (fun c => c.1) ++ rs.map (fun r => r.step) ∧
        rs.map (fun r => r.step) <+: steps.filterMap calledName) ∧
    (∀ rs : List StepResult, (feedbackTurn rs).role = "user" ∧
      includes (feedbackTurn rs).content (stringifyResults rs) = true ∧
      stringifyResults rs = "[" ++ String.intercalate "," (rs.map stringifyResult) ++ "]") := by
  refine ⟨?_, ?_⟩
  · intro json steps st st1 rs hitems hexec
    obtain ⟨added, h1, h2, h3⟩ := execSteps_results env steps st st1 [] rs hexec
    simp only [List.nil_append] at h1
    subst h1
    refine ⟨?_, h2, h3⟩
    simp only [runPlan, hitems, hexec, afterSteps]
    have hpush : (pushFeedback st1 rs).contents =
        st1.contents ++ (if rs = [] then [] else [feedbackTurn rs]) := by
      cases rs <;> simp [pushFeedback, LoopState.push]
    split
    · split <;> simpa [TurnResult.state] using hpush
    · simpa [TurnResult.state] using hpush
  · intro rs
    exact ⟨rfl, includes_middle _ _ _, rfl⟩

theorem afterSteps_completed {σ : Type} (json : Json) (st : LoopState σ)
    (rs : List StepResult) :
    afterSteps json st rs = .completed (afterSteps json st rs).state
      (getProp (some (normalizePlan json)) "continueFlag") := by
  dsimp only [afterSteps]
  split
  · split <;> rfl
  · rfl

theorem response_nonempty (response : String) (h : response ≠ "") :
    (response.data == []) = false := by
  cases response with
  | mk data =>
    cases data with
    | nil => exact absurd rfl h
    | cons c cs => rfl

/-- C13 (as stated it fails): a plan made of one valid `summarize` step and no
`continueFlag` field.  The step runs and its result is fed back, but line 376
leaves `continueFlag` undefined and the `while` test ends the loop: the planner
is called once and the fallback text is returned. -/
theorem C13_steps_without_flag_end_the_loop :
    readJson stepsOnlyPlan = some (.obj [("steps", .arr [summarizeStep])]) ∧
      invoked (planExecution (scripted [stepsOnlyPlan, summaryAnswer])
        "summarize this" "Lorem ipsum..." 0) = some ["summarize"] ∧
      plannerCalls (planExecution (scripted [stepsOnlyPlan, summaryAnswer])
        "summarize this" "Lorem ipsum..." 0) = some 1 ∧
      returnedText (planExecution (scripted [stepsOnlyPlan, summaryAnswer])
        "summarize this" "Lorem ipsum..." 0) = some (fallbackText "Lorem ipsum...") := by
  refine ⟨by rfl, by decide!, by decide!, by decide!⟩

/-- C13 (amended): after a turn whose raw text parsed into a plan and whose step loop
ended without a fault, with fewer than 15 iterations run, the loop plans again
exactly when the `continueFlag` of the normalized plan is truthy; when it is
false, absent or otherwise falsy the loop is done and the run ends with the
recorded final answer. -/
theorem C13_loop_plans_again_iff_flag_truthy {σ : Type} (env : Env σ) (selectedText : String)
    (fuel : Nat) (st st1 : LoopState σ) (w1 w2 : σ) (response : String)
    (json finalResponse : Json) (steps : List Json) (rs : List StepResult)
    (hcreate : env.languageModelCreate st.world = (.ok (), w1))
    (hprompt : env.sessionPrompt st.contents w1 = (.ok response, w2))
    (hresponse : response ≠ "")
    (hparsed : parseResponse env response st.finalResponse = .ok (json, finalResponse))
    (hitems : stepItems (getProp (some json) "steps") = some steps)
    (hexec : execSteps env steps
      { contents := st.contents ++ [⟨"assistant", response⟩]
        iteration := st.iteration + 1
        finalResponse := finalResponse
        world := w2
        prompts := st.prompts ++ [st.contents]
        calls := st.calls } [] = .completed st1 rs)
    (hcap : st.iteration + 1 < 15) :
    loop env selectedText (fuel + 1) st =
      if truthy? (getProp (some (normalizePlan json)) "continueFlag") then
        loop env selectedText fuel (afterSteps json st1 rs).state
      else
        some ⟨finish selectedText (afterSteps json st1 rs).state.finalResponse,
          (afterSteps json st1 rs).state⟩ := by
  have hr := response_nonempty response hresponse
  have hframe := execSteps_frame env steps
    { contents := st.contents ++ [⟨"assistant", response⟩]
      iteration := st.iteration + 1
      finalResponse := finalResponse
      world := w2
      prompts := st.prompts ++ [st.contents]
      calls := st.calls } []
  rw [hexec] at hframe
  simp only [StepsResult.state] at hframe
  have hafter := afterSteps_frame json st1 rs
  have hit : (afterSteps json st1 rs).state.iteration = st.iteration + 1 := by
    rw [hafter.1, hframe.1]
  have htry : tryBlock env { st with iteration := st.iteration + 1 } =
      .completed (afterSteps json st1 rs).state
        (getProp (some (normalizePlan json)) "continueFlag") := by
    simp only [tryBlock, hcreate, hprompt, handleResponse, hr, hparsed, runPlan, hitems,
      LoopState.push, hexec]
    exact afterSteps_completed json st1 rs
  rw [loop, htry]
  have hnot : ¬ 15 ≤ (afterSteps json st1 rs).state.iteration := by omega
  simp only [hnot, if_false]

/-- C13 (amended), at work: the first turn of Scenario A states `continueFlag` true
and is an instance of the theorem. -/
theorem C13_scenario_A_plans_again :
    loop (scripted scenarioA) "Lorem ipsum..." 15 (initial "summarize this" "Lorem ipsum..." 0) =
      if truthy? (getProp (some (normalizePlan summarizePlanParsed)) "continueFlag") then
        loop (scripted scenarioA) "Lorem ipsum..." 14
          (afterSteps summarizePlanParsed scenarioAStepDone
            [⟨"summarize", some "Short summary."⟩]).state
      else
        some ⟨finish "Lorem ipsum..."
          (afterSteps summarizePlanParsed scenarioAStepDone
            [⟨"summarize", some "Short summary."⟩]).state.finalResponse,
          (afterSteps summarizePlanParsed scenarioAStepDone
            [⟨"summarize", some "Short summary."⟩]).state⟩ :=
  C13_loop_plans_again_iff_flag_truthy (scripted scenarioA) "Lorem ipsum..." 14
    (initial "summarize this" "Lorem ipsum..." 0) _ 0 1 summarizePlan summarizePlanParsed
    (.str "") [summarizeStep] [⟨"summarize", some "Short summary."⟩]
    (by rfl) (by rfl) (by decide) (by rfl) (by rfl) (by rfl) (by decide)

/-- C15 (as stated it fails): the planner's text is the well-formed completion plan
`askingAnswer`, which contains "need the selected text".  No fault is raised, so
the `catch` clause with its re-supply turn is not entered: the loop is done after
that one planner call, the conversation ends with the planner's text, and the
fallback text is returned.  A completion plan that only contains "selected text"
is returned as it is. -/
theorem C15_completion_plan_is_not_resupplied :
    includes askingAnswer "need the selected text" = true ∧
      plannerCalls (planExecution (scripted [askingAnswer, summarizePlan, summaryAnswer])
        "summarize this" "Lorem ipsum..." 0) = some 1 ∧
      laterTurns (planExecution (scripted [askingAnswer, summarizePlan, summaryAnswer])
        "summarize this" "Lorem ipsum..." 0) = some [⟨"assistant", askingAnswer⟩] ∧
      returnedText (planExecution (scripted [askingAnswer, summarizePlan, summaryAnswer])
        "summarize this" "Lorem ipsum..." 0) = some (fallbackText "Lorem ipsum...") ∧
      includes mentioningAnswer "selected text" = true ∧
      plannerCalls (planExecution (scripted [mentioningAnswer, summarizePlan, summaryAnswer])
        "summarize this" "Lorem ipsum..." 0) = some 1 ∧
      returnedText (planExecution (scripted [mentioningAnswer, summarizePlan, summaryAnswer])
        "summarize this" "Lorem ipsum..." 0) = some "The selected text is short." := by
  refine ⟨by decide!, by decide!, by decide!, by decide!, by decide!, by decide!, by decide!⟩

/-- C15 (amended): a turn whose raw text parses directly into a completion plan (no
steps, a non-empty string as `finalResponse`, `continueFlag` false) ends the loop
whatever phrasing the text contains: the only turn pushed is the planner's own
text, no further planner call is made, and the run ends with the result of lines
429-444 on that answer. -/
theorem C15_completion_plan_ends_the_loop {σ : Type} (env : Env σ) (selectedText : String)
    (fuel : Nat) (st : LoopState σ) (w1 w2 : σ) (response s : String)
    (kvs : List (String × Json))
    (hcreate : env.languageModelCreate st.world = (.ok (), w1))
    (hprompt : env.sessionPrompt st.contents w1 = (.ok response, w2))
    (hresponse : response ≠ "")
    (hparse : env.jsonParse response = some (.obj kvs))
    (hsteps : lookupKey "steps" kvs = none)
    (hfinal : lookupKey "finalResponse" kvs = some (.str s))
    (hflag : lookupKey "continueFlag" kvs = some (.bool false))
    (hs : s ≠ "") :
    loop env selectedText (fuel + 1) st = some
      { outcome :=
          if includes s "need the selected text" = true ∨ includes s "provide the text" = true
          then .returned (.str (fallbackText selectedText))
          else .returned (.str s)
        final :=
          { contents := st.contents ++ [⟨"assistant", response⟩]
            iteration := st.iteration + 1
            finalResponse := .str s
            world := w2
            prompts := st.prompts ++ [st.contents]
            calls := st.calls } } := by
  have hr := response_nonempty response hresponse
  have hst : (Json.str s).truthy = true := by
    cases s with
    | mk data =>
      cases data with
      | nil => exact absurd rfl hs
      | cons c cs => rfl
  have hnorm : normalizePlan (.obj kvs) = .obj kvs := by
    simp [normalizePlan, getProp, hsteps, truthy?]
  have hplan : ∀ st0 : LoopState σ, runPlan env (.obj kvs) st0 =
      .completed { st0 with finalResponse := .str s } (some (.bool false)) := by
    intro st0
    simp [runPlan, getProp, hsteps, stepItems, execSteps, afterSteps, pushFeedback, hnorm,
      hfinal, hflag, isFalse, hst]
  have hparsed : ∀ fr, parseResponse env response fr = .ok (.obj kvs, .str s) := by
    intro fr
    simp [parseResponse, hparse, dropEmptySteps, hsteps, getProp, hfinal, hst]
  have htry : tryBlock env { st with iteration := st.iteration + 1 } =
      .completed
        { contents := st.contents ++ [⟨"assistant", response⟩]
          iteration := st.iteration + 1
          finalResponse := .str s
          world := w2
          prompts := st.prompts ++ [st.contents]
          calls := st.calls } (some (.bool false)) := by
    simp [tryBlock, hcreate, hprompt, handleResponse, hr, hparsed, hplan, LoopState.push]
  have hfin : finish selectedText (.str s) =
      if includes s "need the selected text" = true ∨ includes s "provide the text" = true
      then .returned (.str (fallbackText selectedText))
      else .returned (.str s) := by
    simp [finish, hst]
  rw [loop, htry]
  simp [hfin, truthy?, Json.truthy]

/-- C15 (amended), at work: the first turn of the run on `askingAnswer` is an instance
of the theorem. -/
theorem C15_asking_answer_ends_the_loop :
    loop (scripted [askingAnswer, summarizePlan, summaryAnswer]) "Lorem ipsum..." 15
        (initial "summarize this" "Lorem ipsum..." 0) = some
      { outcome :=
          if includes "I need the selected text to proceed." "need the selected text" = true ∨
              includes "I need the selected text to proceed." "provide the text" = true
          then .returned (.str (fallbackText "Lorem ipsum..."))
          else .returned (.str "I need the selected text to proceed.")
        final :=
          { contents := (initial "summarize this" "Lorem ipsum..." 0).contents ++
              [⟨"assistant", askingAnswer⟩]
            iteration := 0 + 1
            finalResponse := .str "I need the selected text to proceed."
            world := 1
            prompts := [] ++ [(initial "summarize this" "Lorem ipsum..." 0).contents]
            calls := [] } } :=
  C15_completion_plan_ends_the_loop (scripted [askingAnswer, summarizePlan, summaryAnswer])
    "Lorem ipsum..." 14 (initial "summarize this" "Lorem ipsum..." 0) 0 1 askingAnswer
    "I need the selected text to proceed."
    [("finalResponse", .str "I need the selected text to proceed."),
     ("continueFlag", .bool false)]
    (by rfl) (by rfl) (by decide) (by rfl) (by rfl) (by rfl) (by rfl) (by decide)

/-- C17 (the code departs from it): the recorded final answer changes on turns whose
plan has a truthy `continueFlag`.  With the plan of Scenario A inside a `json` fence,
line 174 records the raw JSON text of the plan; with a directly parsed plan that
carries an answer and `continueFlag` true, line 129 records the answer.  When the
next turn stops the loop without an answer, the run returns what was recorded. -/
theorem C17_truthy_flag_changes_recorded_answer :
    returnedText (planExecution (scripted [fencedSummarizePlan, stopPlan])
        "summarize this" "Lorem ipsum..." 0) = some summarizePlan ∧
      plannerCalls (planExecution (scripted [fencedSummarizePlan, stopPlan])
        "summarize this" "Lorem ipsum..." 0) = some 2 ∧
      readJson interimAnswer =
        some (.obj [("finalResponse", .str "Working on it."), ("continueFlag", .bool true)]) ∧
      returnedText (planExecution (scripted [interimAnswer, stopPlan])
        "summarize this" "Lorem ipsum..." 0) = some "Working on it." ∧
      plannerCalls (planExecution (scripted [interimAnswer, stopPlan])
        "summarize this" "Lorem ipsum..." 0) = some 2 := by
  refine ⟨by decide!, by decide!, by rfl, by decide!, by decide!⟩

/-! ## The shape of the extracted candidates -/

theorem jsonMatch1_braces : ∀ (l g : List Char), jsonMatch1 l = some g →
    ∃ body, g = '\x7b' :: (body ++ ['\x7d']) := by
  intro l
  induction l with
  | nil => intro g h; simp [jsonMatch1] at h
  | cons c cs ih =>
    intro g h
    rw [jsonMatch1] at h
    split at h
    · rename_i g1 h1
      simp only [Option.some.injEq] at h
      subst h
      unfold match1At at h1
      split at h1
      · dsimp only at h1
        split at h1
        · rename_i r3 _
          cases hb : lazyBrace r3 with
          | none => simp [hb] at h1
          | some body =>
            simp only [hb, Option.map_some', Option.some.injEq] at h1
            exact ⟨body, h1.symm⟩
        · simp at h1
      · simp at h1
    · exact ih g h

theorem greedyBrace_closes : ∀ (l b : List Char), greedyBrace l = some b →
    ∃ front, b = front ++ ['\x7d'] := by
  intro l
  induction l with
  | nil => intro b h; simp [greedyBrace] at h
  | cons c cs ih =>
    intro b h
    rw [greedyBrace] at h
    split at h
    · rename_i body hbody
      simp only [Option.some.injEq] at h
      obtain ⟨front, hfront⟩ := ih body hbody
      exact ⟨c :: front, by rw [← h, hfront]; rfl⟩
    · split at h
      · rename_i hc
        simp only [Option.some.injEq] at h
        exact ⟨[], by rw [← h, hc]; rfl⟩
      · simp at h

theorem jsonMatch3_braces : ∀ (l g : List Char), jsonMatch3 l = some g →
    ∃ body, g = '\x7b' :: (body ++ ['\x7d']) := by
  intro l
  induction l with
  | nil => intro g h; simp [jsonMatch3] at h
  | cons c cs ih =>
    intro g h
    rw [jsonMatch3] at h
    split at h
    · rename_i hc
      split at h
      · rename_i body hbody
        simp only [Option.some.injEq] at h
        obtain ⟨front, hfront⟩ := greedyBrace_closes cs body hbody
        exact ⟨front, by rw [← h, hc, hfront]⟩
      · exact ih g h
    · exact ih g h

/-- C16 (as stated it fails): the text of the claim.  The whole text does not parse;
Method 1 finds the fenced `{x}` inside the answer and that text does not parse;
the text from the first opening brace to the last closing brace, which Method 3
would take, does parse; yet line 177 throws and the turn is a parse failure,
because the later methods run only when the earlier ones found no text. -/
theorem C16_first_candidate_decides :
    readJson fenceInsideAnswer = none ∧
      jsonMatch1 fenceInsideAnswer.data = some ['\x7b', 'x', '\x7d'] ∧
      extractJsonText fenceInsideAnswer = some "\x7bx\x7d" ∧
      readJson "\x7bx\x7d" = none ∧
      jsonMatch3 fenceInsideAnswer.data = some fenceInsideAnswerObject.data ∧
      readJson fenceInsideAnswerObject =
        some (.obj [("finalResponse", .str "\x60\x60\x60\x7bx\x7d\x60\x60\x60"),
                    ("continueFlag", .bool false)]) ∧
      parseResponse (scripted [fenceInsideAnswer]) fenceInsideAnswer (.str "") =
        .error ⟨"Error", "Could not parse JSON from response: " ++ fenceInsideAnswer⟩ ∧
      thrownFault (planExecution (scripted [fenceInsideAnswer]) "summarize this"
        "Lorem ipsum..." 0) = some ⟨"ReferenceError", "response is not defined"⟩ := by
  refine ⟨by rfl, by decide!, by decide!, by rfl, by decide!, by rfl, by rfl, by decide!⟩

/-- C16 (amended): the whole text is parsed first.  If that fails, one candidate text
is chosen, the group of Method 1, else the non-empty group of Method 2, else the
match of Method 3, and that one candidate is parsed; the candidates of Methods 1
and 3 open with a brace and close with one.  The turn is a parse failure
exactly when the whole text does not parse and there is no candidate or the
candidate does not parse; otherwise the plan is what parsed, with an empty
`steps` array removed. -/
theorem C16_whole_text_then_one_candidate {σ : Type} (env : Env σ) (response : String)
    (finalResponse : Json) :
    ((∃ e, parseResponse env response finalResponse = .error e) ↔
      env.jsonParse response = none ∧
        ∀ t, extractJsonText response = some t → env.jsonParse t = none) ∧
    (∀ p, env.jsonParse response = some p →
      ∃ fr, parseResponse env response finalResponse = .ok (dropEmptySteps p, fr)) ∧
    (∀ t p, env.jsonParse response = none → extractJsonText response = some t →
      env.jsonParse t = some p →
      ∃ fr, parseResponse env response finalResponse = .ok (dropEmptySteps p, fr)) ∧
    (∀ g, jsonMatch1 response.data = some g → extractJsonText response = some (String.mk g)) ∧
    (∀ c cs, jsonMatch1 response.data = none → jsonMatch2 response.data = some (c :: cs) →
      extractJsonText response = some (String.mk (c :: cs))) ∧
    (jsonMatch1 response.data = none →
      (jsonMatch2 response.data = none ∨ jsonMatch2 response.data = some []) →
      extractJsonText response = (jsonMatch3 response.data).map String.mk) ∧
    (∀ g, jsonMatch1 response.data = some g ∨ jsonMatch3 response.data = some g →
      ∃ body, g = '\x7b' :: (body ++ ['\x7d'])) := by
  refine ⟨?_, ?_, ?_, ?_, ?_, ?_, ?_⟩
  rotate_right
  · rintro g (h | h)
    · exact jsonMatch1_braces _ g h
    · exact jsonMatch3_braces _ g h
  · constructor
    · rintro ⟨e, he⟩
      cases hp : env.jsonParse response with
      | some p =>
        simp only [parseResponse, hp] at he
        split at he
        · split at he <;> simp at he
        · simp at he
      | none =>
        refine ⟨rfl, ?_⟩
        intro t ht
        cases hpt : env.jsonParse t with
        | none => rfl
        | some p =>
          simp only [parseResponse, hp, ht, hpt] at he
          split at he <;> simp at he
    · rintro ⟨hp, hall⟩
      cases ht : extractJsonText response with
      | none =>
        exact ⟨⟨"Error", "No JSON found in response: " ++ response⟩,
          by simp [parseResponse, hp, ht]⟩
      | some t =>
        exact ⟨⟨"Error", "Could not parse JSON from response: " ++ response⟩,
          by simp [parseResponse, hp, ht, hall t ht]⟩
  · intro p hp
    simp only [parseResponse, hp]
    split
    · split
      · exact ⟨_, rfl⟩
      · exact ⟨_, rfl⟩
    · exact ⟨_, rfl⟩
  · intro t p hp ht hpt
    simp only [parseResponse, hp, ht, hpt]
    split
    · exact ⟨_, rfl⟩
    · exact ⟨_, rfl⟩
  · intro g hg
    simp [extractJsonText, hg]
  · intro c cs h1 h2
    simp [extractJsonText, h1, h2]
  · intro h1 h2
    rcases h2 with h2 | h2
    · simp only [extractJsonText, h1, h2]
      cases jsonMatch3 response.data <;> rfl
    · simp only [extractJsonText, h1, h2]
      cases jsonMatch3 response.data <;> rfl

/-! ## Empty `steps` -/

theorem lookupKey_deleteKey_self (k : String) (l : List (String × Json)) :
    lookupKey k (deleteKey k l) = none := by
  induction l with
  | nil => rfl
  | cons kv rest ih =>
    obtain ⟨k1, v⟩ := kv
    by_cases h : k1 = k
    · simpa [deleteKey, h] using ih
    · simp [deleteKey, lookupKey, h, ih]

theorem lookupKey_deleteKey_other (k k1 : String) (h : k ≠ k1) (l : List (String × Json)) :
    lookupKey k (deleteKey k1 l) = lookupKey k l := by
  induction l with
  | nil => rfl
  | cons kv rest ih =>
    obtain ⟨k2, v⟩ := kv
    by_cases h1 : k2 = k1
    · subst h1
      have h2 : ¬ k2 = k := fun h3 => h h3.symm
      simp only [deleteKey, lookupKey, if_true, h2, if_false]
      exact ih
    · by_cases h2 : k2 = k
      · subst h2
        simp only [deleteKey, h1, if_false, lookupKey, if_true]
      · simp only [deleteKey, h1, if_false, lookupKey, h2]
        exact ih

/-- A plan object without a `steps` field makes the step loop visit nothing, whatever
the platform. -/
theorem runPlan_without_steps {σ : Type} (env : Env σ) (kvs : List (String × Json))
    (st : LoopState σ) (h : lookupKey "steps" kvs = none) :
    runPlan env (.obj kvs) st = afterSteps (.obj kvs) st [] := by
  simp [runPlan, getProp, h, stepItems, execSteps]

/-- C11: an empty `steps` array counts as no `steps` field.  Lines 121-127 and 166-172
turn a plan object whose `steps` is the empty array into the same object without
the field.  A turn whose parsed plan has `steps = []` therefore ends exactly like
the turn on the same raw text whose parsed plan lacks the field: the same
conversation, the same recorded final answer and the same `continueFlag`, when the
whole text parsed and when an extracted candidate parsed. -/
theorem C11_empty_steps_is_absent_steps {σ : Type} (env : Env σ)
    (parse2 : String → Option Json) (response : String) (st : LoopState σ)
    (kvs : List (String × Json))
    (hsteps : lookupKey "steps" kvs = some (.arr []))
    (hbranch :
      (env.jsonParse response = some (.obj kvs) ∧
        parse2 response = some (.obj (deleteKey "steps" kvs))) ∨
      (env.jsonParse response = none ∧ parse2 response = none ∧
        ∃ t, extractJsonText response = some t ∧ env.jsonParse t = some (.obj kvs) ∧
          parse2 t = some (.obj (deleteKey "steps" kvs)))) :
    dropEmptySteps (.obj kvs) = .obj (deleteKey "steps" kvs) ∧
      dropEmptySteps (.obj (deleteKey "steps" kvs)) = .obj (deleteKey "steps" kvs) ∧
      handleResponse env response st =
        handleResponse { env with jsonParse := parse2 } response st := by
  have hnone := lookupKey_deleteKey_self "steps" kvs
  have hdrop1 : dropEmptySteps (.obj kvs) = .obj (deleteKey "steps" kvs) := by
    simp [dropEmptySteps, hsteps]
  have hdrop2 : dropEmptySteps (.obj (deleteKey "steps" kvs)) = .obj (deleteKey "steps" kvs) := by
    simp [dropEmptySteps, hnone]
  refine ⟨hdrop1, hdrop2, ?_⟩
  have hparse : ∀ fr, parseResponse env response fr =
      parseResponse { env with jsonParse := parse2 } response fr := by
    intro fr
    rcases hbranch with ⟨h1, h2⟩ | ⟨h1, h2, t, ht, h3, h4⟩
    · simp only [parseResponse, h1, h2, hdrop1, hdrop2]
    · simp only [parseResponse, h1, h2, ht, h3, h4, hdrop1, hdrop2]
  have hjson : ∀ fr json fr1, parseResponse env response fr = .ok (json, fr1) →
      json = .obj (deleteKey "steps" kvs) := by
    intro fr json fr1 h
    rcases hbranch with ⟨h1, h2⟩ | ⟨h1, h2, t, ht, h3, h4⟩
    · simp only [parseResponse, h1, hdrop1] at h
      split at h
      · split at h <;>
          · simp only [Except.ok.injEq, Prod.mk.injEq] at h
            exact h.1.symm
      · simp only [Except.ok.injEq, Prod.mk.injEq] at h
        exact h.1.symm
    · simp only [parseResponse, h1, ht, h3, hdrop1] at h
      split at h <;>
        · simp only [Except.ok.injEq, Prod.mk.injEq] at h
          exact h.1.symm
  dsimp only [handleResponse]
  rw [← hparse]
  split
  · rfl
  · cases hp : parseResponse env response st.finalResponse with
    | error e => rfl
    | ok pair =>
      obtain ⟨json, fr1⟩ := pair
      have hj := hjson _ _ _ hp
      subst hj
      simp only [runPlan_without_steps _ _ _ hnone]

/-- C11, at work: the completion plan of Scenario A with `"steps":[]` added, processed
as parsed and processed with the empty array already removed; and the two runs
on the plan with and without `"steps":[]` return the same text after one planner
call and push no turn besides the planner's own text. -/
theorem C11_empty_steps_answer :
    (dropEmptySteps (.obj emptyStepsAnswerParsed) =
        .obj (deleteKey "steps" emptyStepsAnswerParsed) ∧
      dropEmptySteps (.obj (deleteKey "steps" emptyStepsAnswerParsed)) =
        .obj (deleteKey "steps" emptyStepsAnswerParsed) ∧
      handleResponse (scripted [emptyStepsAnswer]) emptyStepsAnswer
          (initial "summarize this" "Lorem ipsum..." 0) =
        handleResponse
          { scripted [emptyStepsAnswer] with jsonParse := readJsonWithoutEmptySteps }
          emptyStepsAnswer (initial "summarize this" "Lorem ipsum..." 0)) ∧
    returnedText (planExecution (scripted [emptyStepsAnswer]) "summarize this"
      "Lorem ipsum..." 0) = some "Short summary." ∧
    returnedText (planExecution (scripted [summaryAnswer]) "summarize this"
      "Lorem ipsum..." 0) = some "Short summary." ∧
    laterTurns (planExecution (scripted [emptyStepsAnswer]) "summarize this"
      "Lorem ipsum..." 0) = some [⟨"assistant", emptyStepsAnswer⟩] ∧
    laterTurns (planExecution (scripted [summaryAnswer]) "summarize this"
      "Lorem ipsum..." 0) = some [⟨"assistant", summaryAnswer⟩] :=
  ⟨C11_empty_steps_is_absent_steps (scripted [emptyStepsAnswer]) readJsonWithoutEmptySteps
      emptyStepsAnswer (initial "summarize this" "Lorem ipsum..." 0) emptyStepsAnswerParsed
      (by rfl) (Or.inl ⟨by rfl, by rfl⟩),
    by decide!, by decide!, by decide!, by decide!⟩

/-- C18, Scenario A: the first turn runs one step, so one step result is fed back; the
conversation of the whole run holds the plan, the result turn, the feedback turn
with the serialized result, and the final answer of the planner. -/
theorem C18_scenario_A_feedback :
    ((runPlan (scripted scenarioA) summarizePlanParsed scenarioAPlanPushed).state.contents =
        scenarioAStepDone.contents ++
          (if [(⟨"summarize", some "Short summary."⟩ : StepResult)] = [] then []
           else [feedbackTurn [⟨"summarize", some "Short summary."⟩]]) ∧
      scenarioAStepDone.calls.map (fun c => c.1) =
        scenarioAPlanPushed.calls.map (fun c => c.1) ++
          [(⟨"summarize", some "Short summary."⟩ : StepResult)].map (fun r => r.step) ∧
      [(⟨"summarize", some "Short summary."⟩ : StepResult)].map (fun r => r.step) <+:
        [summarizeStep].filterMap calledName) ∧
    stringifyResults [⟨"summarize", some "Short summary."⟩] =
      "[\x7b\"step\":\"summarize\",\"result\":\"Short summary.\"\x7d]" ∧
    laterTurns (planExecution (scripted scenarioA) "summarize this" "Lorem ipsum..." 0) =
      some [⟨"assistant", summarizePlan⟩,
            ⟨"user", "Function summarize result: Short summary."⟩,
            feedbackTurn [⟨"summarize", some "Short summary."⟩],
            ⟨"assistant", summaryAnswer⟩] :=
  ⟨(C18_feedback_holds_all_step_results (scripted scenarioA)).1 summarizePlanParsed
      [summarizeStep] scenarioAPlanPushed scenarioAStepDone
      [⟨"summarize", some "Short summary."⟩] (by rfl) (by rfl),
    by decide!, by decide!⟩

/-- C16 (amended), at work: the plan of Scenario A inside a `json` fence does not parse
as a whole, Method 1 extracts the plan, and the plan is what that candidate parses
to. -/
theorem C16_fenced_plan_is_extracted :
    extractJsonText fencedSummarizePlan = some summarizePlan ∧
      ∃ fr, parseResponse (scripted [fencedSummarizePlan]) fencedSummarizePlan (.str "") =
        .ok (dropEmptySteps summarizePlanParsed, fr) :=
  ⟨by decide!,
    (C16_whole_text_then_one_candidate (scripted [fencedSummarizePlan]) fencedSummarizePlan
      (.str "")).2.2.1 summarizePlan summarizePlanParsed (by rfl) (by decide!) (by rfl)⟩

end Lumos
